import Mathlib

/-!
# Verification of the Cloudflare scraping worker's crawl and feed-scoring core

Shallow embedding of the repository's crawler module (`crawler.js`), RSS
handler (`src/modules/rss_handler.js`) and URL helpers (`utils/helpers.js`).
Strings are modelled as `List Char`; JavaScript numbers as `ℚ` (all weights
and scores in play are small decimals, exactly representable); timestamps as
milliseconds (`Nat`).  Regex-based scanning in the source is embedded as
explicit character-list scanners that implement the same matching discipline
(leftmost match, non-overlapping global scan, case-insensitive search where
the source uses the `i` flag).  Platform primitives that are not part of the
repository (the `URL` constructor, the KV store's `expirationTtl`) are
modelled from their documented behaviour, noted at each definition.
-/

set_option maxRecDepth 16384

namespace Scrape

/-- Strings as character lists (JavaScript strings, scanned char by char). -/
abbrev Str := List Char

/-- ASCII lowering, modelling `String.prototype.toLowerCase` on the ASCII
range used by the configuration keywords and feed text. -/
def lowerS (s : Str) : Str := s.map Char.toLower

/-- JavaScript regex word characters `\w`, i.e. `[A-Za-z0-9_]`. -/
def isWordChar (c : Char) : Bool :=
  ('a' ≤ c && c ≤ 'z') || ('A' ≤ c && c ≤ 'Z') || ('0' ≤ c && c ≤ '9') || c == '_'

/-- Scan for non-overlapping whole-word (`\b…\b`) occurrences of `kw`,
left to right, as the global regex in `calculateProphecyScore` does.
`prevW` records whether the character just before the current position is a
word character (start of string counts as non-word, as `\b` prescribes).
`fuel` is an upper bound on the remaining scan length; each step consumes at
least one character, so `text.length` fuel is always sufficient. -/
def cwwGo (kw : Str) (kwFirstW kwLastW : Bool) : Nat → Str → Bool → Nat
  | 0, _, _ => 0
  | _ + 1, [], _ => 0
  | fuel + 1, c :: cs, prevW =>
    if kw.isPrefixOf (c :: cs) then
      let rest := (c :: cs).drop kw.length
      let nextW := match rest with
        | [] => false
        | d :: _ => isWordChar d
      if (prevW != kwFirstW) && (kwLastW != nextW) then
        1 + cwwGo kw kwFirstW kwLastW fuel rest kwLastW
      else
        cwwGo kw kwFirstW kwLastW fuel cs (isWordChar c)
    else
      cwwGo kw kwFirstW kwLastW fuel cs (isWordChar c)

/-- Number of matches of `new RegExp('\\b' + escapeRegex(kw) + '\\b', 'gi')`
in `text`.  Both `kw` and `text` are already lowercased by the caller (as in
the source), so the `i` flag is inert and matching is literal; `escapeRegex`
makes the keyword a literal pattern, which the embedding matches directly. -/
def countWholeWord (kw text : Str) : Nat :=
  match kw with
  | [] => 0
  | k :: t =>
    cwwGo (k :: t) (isWordChar k) (isWordChar ((k :: t).getLastD k)) text.length text false

/-- The two weight constants of `CONFIG.scoring.keyword_weights`. -/
structure KeywordWeights where
  high : ℚ
  medium : ℚ
deriving DecidableEq, Repr

/-- The scoring part of `config.json` (the configuration file itself is not
in the repository snapshot; its shape is read off the accesses in
`calculateProphecyScore`, so it is carried as a parameter). -/
structure ScoringConfig where
  prophecy_keywords : List Str
  high_priority_keywords : List Str
  keyword_weights : KeywordWeights
deriving DecidableEq, Repr

/-- A parsed feed item as built by `parseRSSFeed` (title, link, description,
pubDate, and the derived combined `content` field). -/
structure FeedItem where
  title : Str
  link : Str
  description : Str
  pubDate : Str
  content : Str
deriving DecidableEq, Repr

/-- `highPriorityKeywords.some(hp => hp.toLowerCase() === keywordLower)`. -/
def isHighPriority (cfg : ScoringConfig) (kwLower : Str) : Bool :=
  cfg.high_priority_keywords.any (fun hp => lowerS hp == kwLower)

/-- One iteration of the keyword loop in `calculateProphecyScore`: count
whole-word occurrences in the combined lowercased text and weight them.
When the count is zero the source adds nothing (the `if (matches)` guard). -/
def keywordScore (cfg : ScoringConfig) (text : Str) (keyword : Str) : ℚ :=
  let kwLower := lowerS keyword
  let count := countWholeWord kwLower text
  if count > 0 then
    (count : ℚ) *
      (if isHighPriority cfg kwLower then cfg.keyword_weights.high
       else cfg.keyword_weights.medium)
  else 0

/-- `String.prototype.includes`: contiguous-substring test (an empty needle
is contained in everything, as in JavaScript). -/
def containsSub (needle : Str) : Str → Bool
  | [] => needle.isEmpty
  | c :: t => needle.isPrefixOf (c :: t) || containsSub needle t

/-- The title-bonus loop: `+1.0` per high-priority keyword appearing as a
case-insensitive substring of the title (`titleText.includes(...)`). -/
def titleBonus (cfg : ScoringConfig) (titleLower : Str) : ℚ :=
  cfg.high_priority_keywords.foldl
    (fun acc kw => if containsSub (lowerS kw) titleLower then acc + 1 else acc) 0

/-- `Number.prototype.toFixed(2)` read back with `parseFloat`: rounding to
two decimal places (half away from zero; all scores in play are
non-negative, where this is half-up). -/
def round2 (q : ℚ) : ℚ := ((⌊q * 100 + 1 / 2⌋ : ℤ) : ℚ) / 100

/-- `calculateProphecyScore(item)` from `rss_handler.js`: weighted
whole-word keyword counts over `title + ' ' + description`, plus the title
bonus, rounded to two decimals. -/
def calculateProphecyScore (cfg : ScoringConfig) (item : FeedItem) : ℚ :=
  let text := lowerS (item.title ++ ' ' :: item.description)
  let base := cfg.prophecy_keywords.foldl (fun acc kw => acc + keywordScore cfg text kw) 0
  round2 (base + titleBonus cfg (lowerS item.title))

/-- A feed item paired with its computed score (the spread
`{ ...item, score }` in `checkSingleFeed`). -/
structure ScoredItem where
  item : FeedItem
  score : ℚ
deriving DecidableEq, Repr

/-- A parsed feed: feed-level title and item list, as returned by
`parseRSSFeed`. -/
structure Feed where
  title : Str
  items : List FeedItem
deriving DecidableEq, Repr

/-- The scoring pass of `checkSingleFeed`: `feed.items.map(item =>
({...item, score: calculateProphecyScore(item)}))`. -/
def scoreItems (cfg : ScoringConfig) (items : List FeedItem) : List ScoredItem :=
  items.map (fun it => ⟨it, calculateProphecyScore cfg it⟩)

/-- Result of `checkSingleFeed` (the fields the claims are about; the
`scored` field keeps the intermediate `scoredItems` list so that the
filtering step can be related to it). -/
structure FeedCheckResult where
  feed_title : Str
  total_items : Nat
  scored : List ScoredItem
  high_score_items : List ScoredItem
deriving DecidableEq, Repr

/-- `checkSingleFeed` after the feed markup has been fetched and parsed
(the HTTP fetch is an external collaborator; this takes the parsed feed):
score every item, then keep those with `score >= threshold` in feed order. -/
def checkSingleFeed (cfg : ScoringConfig) (feed : Feed) (threshold : ℚ) :
    FeedCheckResult :=
  let scored := scoreItems cfg feed.items
  { feed_title := feed.title
    total_items := feed.items.length
    scored := scored
    high_score_items := scored.filter (fun s => threshold ≤ s.score) }

/-- The keyword table of claim C1: `biblical` medium, `prophecy` and
`end times` high-priority, weights high = 2.0 and medium = 1.0. -/
def c1Config : ScoringConfig :=
  { prophecy_keywords :=
      ["biblical".toList, "prophecy".toList, "end times".toList]
    high_priority_keywords := ["prophecy".toList, "end times".toList]
    keyword_weights := { high := 2, medium := 1 } }

/-- The feed entry of claim C1: the given title, empty description. -/
def c1Item : FeedItem :=
  { title := "Biblical prophecy about end times reveals...".toList
    link := "http://example.com/a".toList
    description := []
    pubDate := []
    content := "Biblical prophecy about end times reveals... ".toList }

/-- Case-insensitive prefix test (`prefixCI needle hay`), modelling the `i`
flag of the source's regexes on the ASCII range. -/
def prefixCI : Str → Str → Bool
  | [], _ => true
  | _ :: _, [] => false
  | a :: as, b :: bs => (a.toLower == b.toLower) && prefixCI as bs

/-- Index of the leftmost case-insensitive occurrence of `needle`. -/
def findCI (needle : Str) : Str → Option Nat
  | [] => if needle.isEmpty then some 0 else none
  | c :: t =>
    if prefixCI needle (c :: t) then some 0
    else (findCI needle t).map (· + 1)

/-- `hay` ends with `needle`. -/
def endsWith (needle hay : Str) : Bool :=
  needle.reverse.isPrefixOf hay.reverse

/-- JavaScript `\s` whitespace (the ASCII part; the configuration and feed
texts in play contain no exotic Unicode whitespace). -/
def isSpaceJS (c : Char) : Bool :=
  c == ' ' || c == '\t' || c == '\n' || c == '\r' || c == '\x0b' || c == '\x0c'

/-- `String.prototype.trim`. -/
def jsTrim (s : Str) : Str :=
  ((s.dropWhile isSpaceJS).reverse.dropWhile isSpaceJS).reverse

/-- `.replace(/<[^>]+>/g, repl)`: every `<`…`>` span with at least one
non-`>` character in between is replaced by `repl` (`''` in `cleanText`,
`' '` in `parseHTML`); an unclosed `<` is kept.  `fuel` bounds the scan;
`length` fuel always suffices (each step consumes at least one character). -/
def stripTagsGo (repl : Str) : Nat → Str → Str
  | 0, l => l
  | _ + 1, [] => []
  | fuel + 1, c :: cs =>
    if c == '<' then
      match findCI ['>'] cs with
      | some j => if 1 ≤ j then repl ++ stripTagsGo repl fuel (cs.drop (j + 1))
                  else c :: stripTagsGo repl fuel cs
      | none => c :: stripTagsGo repl fuel cs
    else c :: stripTagsGo repl fuel cs

/-- `.replace(/needle/g, repl)` for a literal needle: non-overlapping,
left-to-right global replacement. -/
def replaceAllGo (needle repl : Str) : Nat → Str → Str
  | 0, l => l
  | _ + 1, [] => []
  | fuel + 1, c :: cs =>
    if !needle.isEmpty && needle.isPrefixOf (c :: cs) then
      repl ++ replaceAllGo needle repl fuel ((c :: cs).drop needle.length)
    else c :: replaceAllGo needle repl fuel cs

/-- Global literal replacement with sufficient fuel. -/
def replaceAll (needle repl s : Str) : Str := replaceAllGo needle repl s.length s

/-- `.replace(/\s+/g, ' ')`: collapse whitespace runs to single spaces. -/
def collapseWS : Nat → Str → Str
  | 0, l => l
  | _ + 1, [] => []
  | fuel + 1, c :: cs =>
    if isSpaceJS c then ' ' :: collapseWS fuel (cs.dropWhile isSpaceJS)
    else c :: collapseWS fuel cs

/-- `cleanText` from `rss_handler.js`: strip tags, decode the six listed
entities in source order, collapse whitespace, trim. -/
def cleanText (s : Str) : Str :=
  let s1 := stripTagsGo [] s.length s
  let s2 := replaceAll "&lt;".toList "<".toList s1
  let s3 := replaceAll "&gt;".toList ">".toList s2
  let s4 := replaceAll "&amp;".toList "&".toList s3
  let s5 := replaceAll "&quot;".toList "\"".toList s4
  let s6 := replaceAll ['&', '#', '3', '9', ';'] [Char.ofNat 39] s5
  let s7 := replaceAll "&nbsp;".toList " ".toList s6
  jsTrim (collapseWS s7.length s7)

/-- One attempt-and-retry scan for the element regexes
`<TAG[^>]*>(?:<!\[CDATA\[)?(…*?)(?:\]\]>)?</CLOSER>` (flag `i`): find the
leftmost `<TAG`, skip over `[^>]*>` (i.e. to the first `>`), optionally
skip a CDATA opener, and capture lazily up to the earliest of the given
closing tags, stripping a trailing `]]>` from the capture (the optional
greedy `(?:\]\]>)?` before the closer).  With `dotAll = false` the capture
is `(.*?)` and may not span a line break (the engine then resumes scanning
after this opening tag, which the retry models); with `dotAll = true` it is
`([\s\S]*?)`.  Returns the match position and the raw capture. -/
def elemGo (tag : Str) (closers : List Str) (dotAll : Bool) :
    Nat → Str → Nat → Option (Nat × Str)
  | 0, _, _ => none
  | fuel + 1, hay, base =>
    match findCI ('<' :: tag) hay with
    | none => none
    | some i =>
      let afterOpen := hay.drop (i + 1 + tag.length)
      match findCI ['>'] afterOpen with
      | none => none
      | some j =>
        let inner0 := afterOpen.drop (j + 1)
        let inner := if prefixCI "<![CDATA[".toList inner0 then inner0.drop 9 else inner0
        let kc := closers.foldl (fun best c =>
          match findCI ('<' :: '/' :: (c ++ ['>'])) inner, best with
          | none, b => b
          | some k, none => some k
          | some k, some b => if k < b then some k else some b) none
        match kc with
        | none => elemGo tag closers dotAll fuel (hay.drop (i + 1)) (base + i + 1)
        | some k =>
          let cap := inner.take k
          if !dotAll && cap.any (fun c => c == '\n' || c == '\r') then
            elemGo tag closers dotAll fuel (hay.drop (i + 1)) (base + i + 1)
          else
            let cap2 := if 3 ≤ k && endsWith "]]>".toList cap then cap.take (k - 3) else cap
            some (base + i, cap2)

/-- Element-text extraction with sufficient fuel. -/
def elemCI (tag : Str) (closers : List Str) (dotAll : Bool) (hay : Str) :
    Option (Nat × Str) :=
  elemGo tag closers dotAll hay.length hay 0

/-- Alternation over opening tags (`<(?:a|b|c)…`): the leftmost successful
match wins, as in a left-to-right regex scan (the opening tags in play are
pairwise non-overlapping, so positions are distinct). -/
def elemAlt (tags : List Str) (closers : List Str) (dotAll : Bool) (hay : Str) :
    Option (Nat × Str) :=
  tags.foldl (fun best t =>
    match elemCI t closers dotAll hay, best with
    | none, b => b
    | some r, none => some r
    | some r, some b => if r.1 < b.1 then some r else some b) none

/-- The publish-date regex
`<(?:pubDate|published|updated)[^>]*>([^<]+)</(?:pubDate|published|updated)>`:
greedy `[^<]+` capture (which must be non-empty and runs exactly to the
first `<`), then any of the closers must follow. -/
def rawElemGo (tag : Str) (closers : List Str) : Nat → Str → Nat → Option (Nat × Str)
  | 0, _, _ => none
  | fuel + 1, hay, base =>
    match findCI ('<' :: tag) hay with
    | none => none
    | some i =>
      let afterOpen := hay.drop (i + 1 + tag.length)
      match findCI ['>'] afterOpen with
      | none => none
      | some j =>
        let inner := afterOpen.drop (j + 1)
        match findCI ['<'] inner with
        | none => none
        | some k =>
          if 1 ≤ k && closers.any (fun c => prefixCI ('<' :: '/' :: (c ++ ['>'])) (inner.drop k)) then
            some (base + i, inner.take k)
          else
            rawElemGo tag closers fuel (hay.drop (i + 1)) (base + i + 1)

/-- Raw-capture alternation (for the publish-date tags), leftmost wins. -/
def rawElemAlt (tags : List Str) (closers : List Str) (hay : Str) : Option (Nat × Str) :=
  tags.foldl (fun best t =>
    match rawElemGo t closers hay.length hay 0, best with
    | none, b => b
    | some r, none => some r
    | some r, some b => if r.1 < b.1 then some r else some b) none

/-- The attribute-form link regex `<TAG[^>]+href=["']([^"']+)["']` (flag
`i`): after the leftmost `<TAG` there must be at least one character, none
of them `>`, before `href=` and a quote; the capture runs to the next quote
of either kind and must be non-empty.  On a failed candidate the scan
resumes one character after the opening (tags with a single `href`
attribute, the only shape the repository's feeds and pages use, are matched
exactly). -/
def hrefGo (tag : Str) : Nat → Str → Option Str
  | 0, _ => none
  | fuel + 1, hay =>
    match findCI ('<' :: tag) hay with
    | none => none
    | some i =>
      let after := hay.drop (i + 1 + tag.length)
      match findCI "href=".toList after with
      | none => none
      | some p =>
        let quoteOk := match after.drop (p + 5) with
          | q :: _ => q == '"' || q == Char.ofNat 39
          | [] => false
        if 1 ≤ p && quoteOk && (after.take p).all (fun c => c != '>') then
          let region := after.drop (p + 6)
          match region.findIdx? (fun c => c == '"' || c == Char.ofNat 39) with
          | some k =>
            if 1 ≤ k then some (region.take k)
            else hrefGo tag fuel (hay.drop (i + 1))
          | none => hrefGo tag fuel (hay.drop (i + 1))
        else hrefGo tag fuel (hay.drop (i + 1))

/-- The item/entry block scan
`<(?:item|entry)[^>]*>([\s\S]*?)</(?:item|entry)>` with the `g` flag:
leftmost opening of either kind, first `>` after it, lazy capture up to the
earliest closing tag of either kind, then continue after the match. -/
def itemBlocksGo : Nat → Str → List Str
  | 0, _ => []
  | fuel + 1, hay =>
    let oi := findCI "<item".toList hay
    let oe := findCI "<entry".toList hay
    let opening : Option (Nat × Nat) := match oi, oe with
      | none, none => none
      | some a, none => some (a, 4)
      | none, some b => some (b, 5)
      | some a, some b => if a ≤ b then some (a, 4) else some (b, 5)
    match opening with
    | none => []
    | some (i, tagLen) =>
      let afterOpen := hay.drop (i + 1 + tagLen)
      match findCI ['>'] afterOpen with
      | none => []
      | some j =>
        let inner := afterOpen.drop (j + 1)
        let ci := findCI "</item>".toList inner
        let ce := findCI "</entry>".toList inner
        let closing : Option (Nat × Nat) := match ci, ce with
          | none, none => none
          | some a, none => some (a, 7)
          | none, some b => some (b, 8)
          | some a, some b => if a ≤ b then some (a, 7) else some (b, 8)
        match closing with
        | none => []
        | some (k, closeLen) =>
          inner.take k :: itemBlocksGo fuel (inner.drop (k + closeLen))

/-- All item/entry blocks of a feed document. -/
def itemBlocks (xml : Str) : List Str := itemBlocksGo xml.length xml

/-- The per-block extraction of `parseRSSFeed`: title, link (element text
or `href` attribute), description/summary/content, publish date; the block
yields an item exactly when title and link are both non-empty (the
`if (title && link)` guard — empty strings are falsy). -/
def parseItemBlock (block : Str) : Option FeedItem :=
  let title := match elemCI "title".toList ["title".toList] false block with
    | some (_, cap) => cleanText cap
    | none => []
  let link := match elemCI "link".toList ["link".toList] false block with
    | some (_, cap) => cleanText cap
    | none => match hrefGo "link".toList block.length block with
      | some cap => cleanText cap
      | none => []
  let descr := match elemAlt ["description".toList, "summary".toList, "content".toList]
      ["description".toList, "summary".toList, "content".toList] true block with
    | some (_, cap) => cleanText cap
    | none => []
  let pd := match rawElemAlt ["pubDate".toList, "published".toList, "updated".toList]
      ["pubDate".toList, "published".toList, "updated".toList] block with
    | some (_, cap) => jsTrim cap
    | none => []
  if !title.isEmpty && !link.isEmpty then
    some { title := title, link := link, description := descr, pubDate := pd
           content := title ++ ' ' :: descr }
  else none

/-- `parseRSSFeed(xmlText)`: feed-level title (first `<title>` element,
`'Untitled Feed'` fallback) and the items extracted from each block. -/
def parseRSSFeed (xml : Str) : Feed :=
  { title := match elemCI "title".toList ["title".toList] false xml with
      | some (_, cap) => cleanText cap
      | none => "Untitled Feed".toList
    items := (itemBlocks xml).filterMap parseItemBlock }

/-- The title-but-no-link feed of claim C6. -/
def c6Xml : Str :=
  "<rss><channel><title>T</title><item><title>Hello</title></item></channel></rss>".toList

/-- A keyword-free entry (used to exercise the below-threshold side of the
filter): none of the C1 keywords occur in it. -/
def c3ItemB : FeedItem :=
  { title := "nothing to see here".toList
    link := "http://example.com/b".toList
    description := []
    pubDate := []
    content := "nothing to see here ".toList }

/-- A well-formed one-item feed (title and link both present). -/
def c6GoodXml : Str :=
  "<rss><channel><title>T</title><item><title>A</title><link>http://x.com/</link></item></channel></rss>".toList

/-- The entry `parseRSSFeed` extracts from `c6GoodXml`. -/
def c6GoodEntry : FeedItem :=
  { title := "A".toList
    link := "http://x.com/".toList
    description := []
    pubDate := []
    content := "A ".toList }

/-- A crawl job as submitted to `env.SCRAPE_QUEUE.send` by `checkRSSFeeds`
(the `id` and `timestamp` fields are generated from the clock and a random
source, i.e. external nondeterminism, and are not modelled). -/
structure Job where
  url : Str
  mode : Str
  source : Str
  feed_name : Str
  score : ℚ
  title : Str
deriving DecidableEq, Repr

/-- One entry of `CONFIG.rss_feeds`. -/
structure FeedCfg where
  name : Str
  url : Str
  enabled : Bool
deriving DecidableEq, Repr

/-- The `results` accumulator of `checkRSSFeeds`, plus a ghost `attempts`
log recording every `SCRAPE_QUEUE.send` call in order (the queue itself is
an external collaborator; the log makes "was dispatched" observable). -/
structure RSSummary where
  feeds_checked : Nat
  high_score_items : List ScoredItem
  scrapes_triggered : Nat
  errors : List (Str × Str)
  attempts : List Job
deriving DecidableEq, Repr

/-- The job built for one high-scoring item (url = entry link, manual mode,
rss source, feed name, score and title as provenance). -/
def mkJob (feedName : Str) (s : ScoredItem) : Job :=
  { url := s.item.link
    mode := "manual".toList
    source := "rss".toList
    feed_name := feedName
    score := s.score
    title := s.item.title }

/-- The inner `for (const item of feedResult.high_score_items)` loop of
`checkRSSFeeds`.  `send` is the queue collaborator (`none` = accepted,
`some msg` = the send threw with that message).  A throw propagates to the
per-feed `catch`, so the loop stops at the first failure: the result is
(items pushed, scrapes triggered, jobs attempted, error if any). -/
def dispatchItems (send : Job → Option Str) (feedName : Str) :
    List ScoredItem → List ScoredItem × Nat × List Job × Option Str
  | [] => ([], 0, [], none)
  | s :: rest =>
    let job := mkJob feedName s
    match send job with
    | none =>
      let r := dispatchItems send feedName rest
      (s :: r.1, r.2.1 + 1, job :: r.2.2.1, r.2.2.2)
    | some err => ([], 0, [job], some err)

/-- The initial `results` object of `checkRSSFeeds`. -/
def emptySummary : RSSummary := ⟨0, [], 0, [], []⟩

/-- Componentwise combination of two summaries (used to state that feeds
are processed independently). -/
def mergeSummary (a b : RSSummary) : RSSummary :=
  ⟨a.feeds_checked + b.feeds_checked,
   a.high_score_items ++ b.high_score_items,
   a.scrapes_triggered + b.scrapes_triggered,
   a.errors ++ b.errors,
   a.attempts ++ b.attempts⟩

/-- The body of the `for (const feed of feeds)` loop of `checkRSSFeeds`:
fetch and check the feed (`fetchFeed` models the HTTP fetch of the feed
markup, `.error` = fetch or HTTP-status failure), then dispatch each
high-scoring item; any throw (fetch failure or queue failure) is caught
and recorded in `errors` under the feed's name. -/
def checkRSSFeedsStep (threshold : ℚ) (cfg : ScoringConfig)
    (fetchFeed : Str → Except Str Str) (send : Job → Option Str)
    (acc : RSSummary) (f : FeedCfg) : RSSummary :=
  match fetchFeed f.url with
  | .error e => { acc with errors := acc.errors ++ [(f.name, e)] }
  | .ok xml =>
    let fr := checkSingleFeed cfg (parseRSSFeed xml) threshold
    let r := dispatchItems send f.name fr.high_score_items
    { feeds_checked := acc.feeds_checked + 1
      high_score_items := acc.high_score_items ++ r.1
      scrapes_triggered := acc.scrapes_triggered + r.2.1
      errors := acc.errors ++ (match r.2.2.2 with
        | some e => [(f.name, e)]
        | none => [])
      attempts := acc.attempts ++ r.2.2.1 }

/-- `checkRSSFeeds(env, ctx)`: iterate over the enabled configured feeds,
accumulating the summary (the final `storeResult` call is an external
persistence sink and does not alter the summary). -/
def checkRSSFeeds (feeds : List FeedCfg) (threshold : ℚ) (cfg : ScoringConfig)
    (fetchFeed : Str → Except Str Str) (send : Job → Option Str) : RSSummary :=
  (feeds.filter (fun f => f.enabled)).foldl
    (checkRSSFeedsStep threshold cfg fetchFeed send) emptySummary

/-- An empty keyword table: every entry scores 0, so with threshold 0 every
entry qualifies (used to drive the dispatch loop). -/
def c9Config : ScoringConfig :=
  { prophecy_keywords := []
    high_priority_keywords := []
    keyword_weights := { high := 2, medium := 1 } }

/-- The configured feed of the C9 scenario. -/
def c9Feed : FeedCfg :=
  ⟨"F".toList, "http://feed.example/rss".toList, true⟩

/-- A feed with two well-formed items. -/
def c9Xml : Str :=
  "<rss><channel><title>F</title><item><title>One</title><link>http://a.com/1</link></item><item><title>Two</title><link>http://a.com/2</link></item></channel></rss>".toList

/-- First parsed entry of `c9Xml`. -/
def c9E1 : FeedItem :=
  { title := "One".toList, link := "http://a.com/1".toList
    description := [], pubDate := [], content := "One ".toList }

/-- Second parsed entry of `c9Xml`. -/
def c9E2 : FeedItem :=
  { title := "Two".toList, link := "http://a.com/2".toList
    description := [], pubDate := [], content := "Two ".toList }

/-- Feed-fetch oracle of the C9 scenario. -/
def c9Fetch : Str → Except Str Str :=
  fun u => if u == c9Feed.url then .ok c9Xml else .error "unreachable".toList

/-- Queue oracle of the C9 scenario: the send for the first entry's URL
throws, every other send succeeds. -/
def c9Send : Job → Option Str :=
  fun j => if j.url == "http://a.com/1".toList then some "queue full".toList else none

/-- Characters allowed in a URL scheme after the leading letter. -/
def isSchemeChar (c : Char) : Bool :=
  c.isAlpha || c.isDigit || c == '+' || c == '-' || c == '.'

/-- Modelled from the platform `URL` constructor (`new URL(s)`), which the
repository's `isValidUrl`/`extractDomain` helpers wrap but which is not
itself repository code: for the hierarchical `scheme://host…` URLs the
crawler and feeds deal with, the string parses iff a letter-led scheme is
followed by `://` and a non-empty, space-free host; the hostname is the
segment up to the first `/`, `?`, `#` or `:`, lowercased.  Non-hierarchical
URLs (`mailto:` etc.) are outside the modelled fragment.  Returns the
hostname. -/
def parseUrl (s : Str) : Option Str :=
  match findCI "://".toList s with
  | none => none
  | some i =>
    let scheme := s.take i
    let rest := s.drop (i + 3)
    let host := rest.takeWhile (fun c => !(c == '/' || c == '?' || c == '#' || c == ':'))
    let schemeOk := match scheme with
      | [] => false
      | c :: cs => c.isAlpha && cs.all isSchemeChar
    if schemeOk && !host.isEmpty && host.all (fun c => !isSpaceJS c) then
      some (lowerS host)
    else none

/-- `extractDomain(url)` from `helpers.js`: the parsed hostname, or `null`
(here `none`) when the URL does not parse. -/
def extractDomain (s : Str) : Option Str := parseUrl s

/-- `isValidUrl(string)` from `helpers.js`: `new URL` succeeds. -/
def isValidUrl (s : Str) : Bool := (parseUrl s).isSome

/-- The script/style remover
`.replace(/<TAG\b[^<]*(?:(?!<\/TAG>)<[^<]*)*<\/TAG>/gi, '')`: each
`<TAG` followed by a word boundary is removed together with everything up
to and including the nearest following `</TAG>`; an opener with no closer
is left in place. -/
def stripBlockGo (tag : Str) : Nat → Str → Str
  | 0, l => l
  | _ + 1, [] => []
  | fuel + 1, c :: cs =>
    if prefixCI ('<' :: tag) (c :: cs) then
      let after := (c :: cs).drop (tag.length + 1)
      let bOK := match after with
        | [] => true
        | d :: _ => !isWordChar d
      if bOK then
        match findCI ('<' :: '/' :: (tag ++ ['>'])) after with
        | some k => stripBlockGo tag fuel (after.drop (k + tag.length + 3))
        | none => c :: stripBlockGo tag fuel cs
      else c :: stripBlockGo tag fuel cs
    else c :: stripBlockGo tag fuel cs

/-- The global anchor scan `html.matchAll(/<a[^>]+href=["']([^"']+)["']/gi)`:
each `<a` followed by at least one non-`>` character and `href=` with a
quote yields the non-empty capture up to the next quote of either kind, and
the scan resumes after it (tags with a single `href` attribute — the only
shape the pages in play use — are matched exactly). -/
def anchorsGo : Nat → Str → List Str
  | 0, _ => []
  | fuel + 1, hay =>
    match findCI "<a".toList hay with
    | none => []
    | some i =>
      let after := hay.drop (i + 2)
      match findCI "href=".toList after with
      | none => []
      | some p =>
        let quoteOk := match after.drop (p + 5) with
          | q :: _ => q == '"' || q == Char.ofNat 39
          | [] => false
        if 1 ≤ p && quoteOk && (after.take p).all (fun c => c != '>') then
          let region := after.drop (p + 6)
          match region.findIdx? (fun c => c == '"' || c == Char.ofNat 39) with
          | some k =>
            if 1 ≤ k then region.take k :: anchorsGo fuel (region.drop (k + 1))
            else anchorsGo fuel (hay.drop (i + 1))
          | none => anchorsGo fuel (hay.drop (i + 1))
        else anchorsGo fuel (hay.drop (i + 1))

/-- All `href` captures of anchor tags, in document order. -/
def anchors (html : Str) : List Str := anchorsGo html.length html

/-- The `{title, content, links}` record returned by `parseHTML`. -/
structure ParsedPage where
  title : Str
  content : Str
  links : List Str
deriving DecidableEq, Repr

/-- `parseHTML(html)` from `crawler.js`: title from the first
`<title…>[^<]+</title>` match (trimmed, `'Untitled'` fallback), script and
style blocks removed, remaining tags replaced by spaces, whitespace
collapsed and trimmed, content capped at 50000 characters; links are the
anchor `href` values that are valid URLs (from the ORIGINAL markup, before
tag stripping), capped at 50. -/
def parseHTML (html : Str) : ParsedPage :=
  let title := match rawElemGo "title".toList ["title".toList] html.length html 0 with
    | some (_, cap) => jsTrim cap
    | none => "Untitled".toList
  let clean1 := stripBlockGo "script".toList html.length html
  let clean2 := stripBlockGo "style".toList clean1.length clean1
  let content := jsTrim (collapseWS clean2.length (stripTagsGo [' '] clean2.length clean2))
  { title := title
    content := content.take 50000
    links := ((anchors html).filter isValidUrl).take 50 }

/-- A page whose two anchors carry the SAME absolute URL. -/
def c7Html : Str :=
  "<html><p><a href=\"http://x.com/\">one</a> and <a href=\"http://x.com/\">two</a></p></html>".toList

/-- An extracted Document: the `data` object built in `scrapeSingleUrl`.
`content_md` (the Markdown rendering, an external collaborator per the
spec's scope) is not modelled; the `metadata` sub-object is flattened into
`contentType`/`contentLength`.  Timestamps are epoch milliseconds (the ISO
string written by `new Date().toISOString()` and read back with
`new Date(...).getTime()` round-trips through this value). -/
structure Doc where
  url : Str
  title : Str
  content : Str
  links : List Str
  scraped_at : Nat
  method : Str
  contentType : Str
  contentLength : Nat
deriving DecidableEq, Repr

/-- One KV cache record: the stored Document plus the write instant (KV
applies the `expirationTtl` relative to it). -/
structure CacheEntry where
  value : Doc
  putTime : Nat
deriving DecidableEq, Repr

/-- An HTTP response of the network oracle. -/
structure HttpResp where
  ok : Bool
  status : Nat
  statusText : Str
  contentType : Str
  body : Str
deriving DecidableEq, Repr

/-- The environment of one crawl call: the KV cache contents, the network
as a finite URL/response table (`none` = network error), the clock, and the
`max_retries` / `max_pages_per_domain` configuration values (the
`config.json` file is not in the repository snapshot, so they are carried
as parameters). -/
structure Env where
  cache : List (Str × CacheEntry)
  web : List (Str × HttpResp)
  now : Nat
  maxRetries : Nat
  maxPages : Nat
deriving DecidableEq, Repr

/-- 24 hours in milliseconds: both the handler's `maxAge` and the KV
`expirationTtl` (86400 s). -/
def ttlMs : Nat := 24 * 60 * 60 * 1000

/-- The cache key `scrape:URL`. -/
def cacheKey (url : Str) : Str := "scrape:".toList ++ url

/-- `checkCache(url, cache)`: KV `get` (an entry written with
`expirationTtl` is visible while `now < putTime + TTL` — platform KV
semantics, modelled from its documentation), then the handler's own
freshness check `Date.now() − scraped_at < 24h`; any miss yields `null`. -/
def checkCache (cache : List (Str × CacheEntry)) (now : Nat) (url : Str) : Option Doc :=
  match cache.lookup (cacheKey url) with
  | none => none
  | some e =>
    if now < e.putTime + ttlMs then
      if now - e.value.scraped_at < ttlMs then some e.value else none
    else none

/-- `cacheResult(url, data, cache)`: KV `put` with 24h `expirationTtl`;
the new record shadows any previous one (`lookup` returns the newest). -/
def cacheResult (cache : List (Str × CacheEntry)) (now : Nat) (url : Str) (d : Doc) :
    List (Str × CacheEntry) :=
  (cacheKey url, ⟨d, now⟩) :: cache

/-- The `{title, content, links, metadata}` object a strategy returns. -/
structure FetchResult where
  title : Str
  content : Str
  links : List Str
  contentType : Str
  contentLength : Nat
deriving DecidableEq, Repr

/-- The `retry` helper of `helpers.js` applied to the deterministic fetch:
it re-invokes the closure up to `maxRetries` times (with backoff delays,
which carry no semantic weight here); since the oracle is deterministic
within one call, the result equals a single attempt whenever
`maxRetries ≥ 1`, and with 0 retries the loop never runs and the undefined
`lastError` is thrown. -/
def retryFetch (maxRetries : Nat) (r : Except Str HttpResp) : Except Str HttpResp :=
  match maxRetries with
  | 0 => .error "undefined".toList
  | _ + 1 => r

/-- The message of the `ReferenceError` thrown by the retry closure of
`scrapeWithFetch` when it evaluates `response.ok`: the fetch result is
bound to `res`, while `response` is the OUTER `const` whose initializer
(the `retry(...)` call itself) has not completed — a temporal-dead-zone
access. -/
def tdzMsg : Str :=
  "ReferenceError: Cannot access ".toList ++
    Char.ofNat 39 :: "response".toList ++
    Char.ofNat 39 :: " before initialization".toList

/-- The retry closure of `scrapeWithFetch`: `const res = await fetch(url,
…)` followed by `if (!response.ok) …`.  A URL absent from the network
table rejects (the fetch error propagates); whenever the fetch RESOLVES —
2xx and non-2xx alike — the closure dereferences the uninitialized outer
`response` and throws a `ReferenceError`, so the closure can never return
and the `ok`/status branch written in the source is dead code. -/
def fetchResp (web : List (Str × HttpResp)) (url : Str) : Except Str HttpResp :=
  match web.lookup url with
  | none => .error "fetch failed".toList
  | some _ => .error tdzMsg

/-- Strategy 1, `scrapeWithFetch`: retried fetch, then content-type guard
and `parseHTML` on the resolved response.  The success branch mirrors the
source text but is unreachable: the retry closure (`fetchResp`) always
throws, because it reads `response.ok` while `response` is still in its
temporal dead zone (the fetch result is bound to `res`). -/
def scrapeWithFetch (env : Env) (url : Str) : Except Str FetchResult :=
  match retryFetch env.maxRetries (fetchResp env.web url) with
  | .error e => .error e
  | .ok resp =>
    if containsSub "text/html".toList resp.contentType then
      let parsed := parseHTML resp.body
      .ok { title := parsed.title, content := parsed.content, links := parsed.links
            contentType := resp.contentType, contentLength := resp.body.length }
    else .error ("Unexpected content type: ".toList ++ resp.contentType)

/-- Strategy 2, `scrapeWithBrowser`: unconfigured, always throws. -/
def scrapeWithBrowser (_ : Env) (_ : Str) : Except Str FetchResult :=
  .error "Browser rendering not configured".toList

/-- Strategy 3, `scrapeWithAPI`: unconfigured, always throws. -/
def scrapeWithAPI (_ : Env) (_ : Str) : Except Str FetchResult :=
  .error "API scraping not configured".toList

/-- The `strategies` array of `scrapeSingleUrl`, in source order. -/
def strategyList : List (Str × (Env → Str → Except Str FetchResult)) :=
  [("fetch".toList, scrapeWithFetch),
   ("puppeteer".toList, scrapeWithBrowser),
   ("api".toList, scrapeWithAPI)]

/-- The strategy loop: a thrown strategy error is swallowed into
`lastError`; a returned result is accepted only if its `content` is truthy
(non-empty), otherwise the chain advances WITHOUT touching `lastError`;
exhaustion throws `All scraping strategies failed. Last error: …` carrying
the last error (or the string `undefined` if none was recorded). -/
def runChain (env : Env) (url : Str) :
    List (Str × (Env → Str → Except Str FetchResult)) → Option Str →
      Except Str (Str × FetchResult)
  | [], lastErr =>
    .error ("All scraping strategies failed. Last error: ".toList ++
      (lastErr.getD "undefined".toList))
  | (nm, fn) :: rest, lastErr =>
    match fn env url with
    | .ok r => if !r.content.isEmpty then .ok (nm, r) else runChain env url rest lastErr
    | .error e => runChain env url rest (some e)

/-- The success payload of `scrapeSingleUrl` (`cached` marks the cache-hit
path). -/
structure ScrapeOutcome where
  cached : Bool
  data : Doc
deriving DecidableEq, Repr

/-- `scrapeSingleUrl(url, env)`: cache first, then the strategy chain; a
fresh success builds the Document (with `scraped_at = now` and the winning
strategy's name) and writes it to the cache.  Returns the thrown-or-ok
outcome together with the cache state after the call. -/
def scrapeSingleUrl (env : Env) (url : Str) :
    Except Str ScrapeOutcome × List (Str × CacheEntry) :=
  match checkCache env.cache env.now url with
  | some d => (.ok ⟨true, d⟩, env.cache)
  | none =>
    match runChain env url strategyList none with
    | .ok (nm, r) =>
      let d : Doc :=
        { url := url, title := r.title, content := r.content, links := r.links
          scraped_at := env.now, method := nm
          contentType := r.contentType, contentLength := r.contentLength }
      (.ok ⟨false, d⟩, cacheResult env.cache env.now url d)
    | .error e => (.error e, env.cache)

/-- The `data` object returned by `crawlRecursive`. -/
structure CrawlData where
  start_url : Str
  pages_crawled : Nat
  pages : List Doc
  max_depth : Nat
deriving DecidableEq, Repr

/-- The traversal state of `crawlRecursive`: the frontier queue of
`(url, depth)` pairs, the visited set, and the results.  Each result keeps
the depth at which its URL was dequeued, and `log` records every scrape
attempt (dequeued, unvisited, depth-admissible URL) in order — both are
ghost annotations; the JavaScript-visible `results` array is the first
components of `results`. -/
structure CrawlSt where
  queue : List (Str × Nat)
  visited : List Str
  results : List (Doc × Nat)
  log : List (Str × Nat)
deriving DecidableEq, Repr

/-- The `while (queue.length > 0 && results.length < max_pages)` loop of
`crawlRecursive`, with explicit fuel (a sufficient amount is supplied by
`crawlRecursive`; see `crawlLoop_reaches_stop`).  A dequeued URL is skipped
if visited or beyond `maxDepth`; otherwise it is marked visited and
scraped.  On success the Document is appended and, if `depth < maxDepth`,
its links with the start URL's hostname that are not yet visited are
enqueued at `depth + 1`; a scrape failure is logged and skipped.  The
scrape runs against the call's initial cache: within one traversal each
URL is scraped at most once and a cache write only ever happens for the
URL being visited in that same iteration, so no read of a
traversal-written entry can occur and the evolving cache is
read-equivalent to the initial one. -/
def crawlLoop (env : Env) (domain : Option Str) (maxDepth cap : Nat) :
    Nat → CrawlSt → CrawlSt
  | 0, st => st
  | fuel + 1, st =>
    if st.results.length < cap then
      match st.queue with
      | [] => st
      | (url, depth) :: rest =>
        if st.visited.contains url || maxDepth < depth then
          crawlLoop env domain maxDepth cap fuel { st with queue := rest }
        else
          let visited2 := url :: st.visited
          match (scrapeSingleUrl env url).1 with
          | .ok out =>
            let doc := out.data
            let newLinks :=
              if depth < maxDepth then
                doc.links.filter (fun l => extractDomain l == domain && !visited2.contains l)
              else []
            crawlLoop env domain maxDepth cap fuel
              { queue := rest ++ newLinks.map (fun l => (l, depth + 1))
                visited := visited2
                results := st.results ++ [(doc, depth)]
                log := st.log ++ [(url, depth)] }
          | .error _ =>
            crawlLoop env domain maxDepth cap fuel
              { st with queue := rest, visited := visited2, log := st.log ++ [(url, depth)] }
    else st

/-- Upper bound on the number of links any single successful scrape can
contribute: the cached Documents' link counts plus 50 (the `parseHTML`
cap) per network entry. -/
def linksSum (env : Env) : Nat :=
  (env.cache.map (fun e => e.2.value.links.length)).sum + 50 * env.web.length

/-- Number of cache/web entries whose URL is not yet visited: an upper
bound on the number of future successful scrapes. -/
def newCount (env : Env) (visited : List Str) : Nat :=
  (env.cache.filter (fun e => !visited.any (fun u => e.1 == cacheKey u))).length +
  (env.web.filter (fun e => !visited.contains e.1)).length

/-- Termination measure of the crawl loop: it strictly decreases at every
iteration, so `crawlMeasure + 1` fuel always drives the loop to one of its
two stop conditions. -/
def crawlMeasure (env : Env) (st : CrawlSt) : Nat :=
  st.queue.length + (linksSum env + 1) * newCount env st.visited

/-- The result of `crawlRecursive` (`success` is set unconditionally at
the end of the loop; `log`, `finalQueue` and `resultsDepths` are the ghost
observations of the traversal). -/
structure CrawlOutcome where
  success : Bool
  data : CrawlData
  log : List (Str × Nat)
  finalQueue : List (Str × Nat)
  resultsDepths : List (Doc × Nat)
deriving DecidableEq, Repr

/-- `crawlRecursive(startUrl, maxDepth, env)`: breadth-first traversal
from `(startUrl, 0)` with the start URL's hostname as the domain filter,
bounded by `maxDepth` and `env.maxPages`. -/
def crawlRecursive (env : Env) (startUrl : Str) (maxDepth : Nat) : CrawlOutcome :=
  let st0 : CrawlSt := ⟨[(startUrl, 0)], [], [], []⟩
  let fin := crawlLoop env (extractDomain startUrl) maxDepth env.maxPages
    (crawlMeasure env st0 + 1) st0
  { success := true
    data := { start_url := startUrl, pages_crawled := fin.results.length
              pages := fin.results.map Prod.fst, max_depth := maxDepth }
    log := fin.log
    finalQueue := fin.queue
    resultsDepths := fin.results }

/-- A state at which the loop's `while` condition is false: empty frontier
or the page cap reached. -/
def crawlStop (cap : Nat) (st : CrawlSt) : Prop :=
  st.queue = [] ∨ cap ≤ st.results.length

/-- The traversal invariants of claims C2 and C8: no URL logged twice,
logged URLs are visited, every logged/queued/result depth is within
`maxDepth`, the page cap holds, and every queued or logged URL is either
the start URL or has the start's hostname. -/
def crawlInv (startUrl : Str) (domain : Option Str) (maxDepth cap : Nat)
    (st : CrawlSt) : Prop :=
  (st.log.map Prod.fst).Nodup ∧
  (∀ e ∈ st.log, e.1 ∈ st.visited) ∧
  (∀ e ∈ st.log, e.2 ≤ maxDepth) ∧
  (∀ q ∈ st.queue, q.2 ≤ maxDepth) ∧
  st.results.length ≤ cap ∧
  (∀ r ∈ st.results, r.2 ≤ maxDepth) ∧
  (∀ q ∈ st.queue, q.1 = startUrl ∨ extractDomain q.1 = domain) ∧
  (∀ e ∈ st.log, e.1 = startUrl ∨ extractDomain e.1 = domain)

/-- The parameters of a crawl request. -/
structure CrawlParams where
  url : Str
  mode : Str
  depth : Nat
deriving DecidableEq, Repr

/-- The response envelope of `handleCrawl` (the `job_id` is generated
randomness and the `storeResult` persistence sink is an external
collaborator whose ack does not alter the envelope; neither is modelled). -/
structure HandleOut where
  success : Bool
  error : Str
  result : Option (Bool × Option CrawlData)
deriving DecidableEq, Repr

/-- `handleCrawl(params, env, ctx)`: reject invalid URLs; `manual` mode
scrapes the single URL (a strategy-exhaustion throw is caught and returned
as `success: false` with the error message); `auto` mode runs the
recursive crawl; unknown modes fail.  In the `result` field the first
component is the inner result's `success` flag and the second the crawl
data of auto mode. -/
def handleCrawl (env : Env) (p : CrawlParams) : HandleOut :=
  if !isValidUrl p.url then
    { success := false, error := "Invalid URL provided".toList, result := none }
  else if p.mode == "manual".toList then
    match (scrapeSingleUrl env p.url).1 with
    | .ok _ => { success := true, error := [], result := some (true, none) }
    | .error e => { success := false, error := e, result := none }
  else if p.mode == "auto".toList then
    let r := crawlRecursive env p.url p.depth
    { success := true, error := [], result := some (r.success, some r.data) }
  else
    { success := false, error := ("Unknown mode: ".toList ++ p.mode), result := none }

/-- A cached Document fetched at t = 1000 ms. -/
def c4Doc : Doc :=
  { url := "http://c.com/".toList, title := "C".toList, content := "hi".toList
    links := [], scraped_at := 1000, method := "fetch".toList
    contentType := "text/html".toList, contentLength := 2 }

/-- A stale Document fetched at t = 0. -/
def c4OldDoc : Doc :=
  { url := "http://c.com/".toList, title := "Old".toList, content := "old".toList
    links := [], scraped_at := 0, method := "fetch".toList
    contentType := "text/html".toList, contentLength := 3 }

/-- A fresh, healthy HTTP 200 text/html response: the re-fetch after
staleness that the spec intends to succeed. -/
def c4Resp : HttpResp :=
  { ok := true, status := 200, statusText := "OK".toList
    contentType := "text/html".toList
    body := "<html><title>N</title><p>new page text</p></html>".toList }

/-- Environment whose cache holds only a stale entry for the URL and whose
network serves the healthy response, exactly one TTL after the stale
write: the failing input for the `response`-in-dead-zone bug (the intended
behaviour is a fresh Document overwriting the entry; the code throws). -/
def c4Env : Env :=
  { cache := cacheResult [] 0 "http://c.com/".toList c4OldDoc
    web := [("http://c.com/".toList, c4Resp)]
    now := ttlMs, maxRetries := 1, maxPages := 10 }

/-- A permanent HTTP 500 response. -/
def c5Resp : HttpResp :=
  { ok := false, status := 500, statusText := "Internal Server Error".toList
    contentType := "text/html".toList, body := [] }

/-- Environment for the C5 scenario: empty cache, the URL answers 500. -/
def c5Env : Env :=
  { cache := [], web := [("http://err.com/".toList, c5Resp)]
    now := 0, maxRetries := 1, maxPages := 10 }

/-- A healthy HTML response with the given body. -/
def mkResp (body : Str) : HttpResp :=
  { ok := true, status := 200, statusText := "OK".toList
    contentType := "text/html".toList, body := body }

/-- Start URL of the maxDepth=1 traversal scenario. -/
def c8Start : Str := "http://site.com/".toList

/-- Start page: three same-domain links and two cross-domain links. -/
def c8BodyS : Str :=
  "<html><title>S</title><body><a href=\"http://site.com/a\">1</a><a href=\"http://site.com/b\">2</a><a href=\"http://site.com/c\">3</a><a href=\"http://other.com/x\">4</a><a href=\"http://elsewhere.org/y\">5</a></body></html>".toList

/-- Child page that links back to the start (a cycle). -/
def c8BodyA : Str :=
  "<html><title>A</title><body>alpha <a href=\"http://site.com/\">home</a></body></html>".toList

/-- Plain child page. -/
def c8BodyB : Str := "<html><title>B</title><body>beta</body></html>".toList

/-- Plain child page. -/
def c8BodyC : Str := "<html><title>C</title><body>gamma</body></html>".toList

/-- Cross-domain page (reachable in the web, never traversed). -/
def c8BodyX : Str := "<html><title>X</title><body>cross</body></html>".toList

/-- Cross-domain page (reachable in the web, never traversed). -/
def c8BodyY : Str := "<html><title>Y</title><body>cross2</body></html>".toList

/-- Environment serving the scenario pages over the network only.  Since
the plain-fetch strategy always throws (`fetchResp`), a crawl here fetches
nothing — the program's universal behaviour on a cold cache, used by the
C10 witness. -/
def c8Env : Env :=
  { cache := []
    web := [(c8Start, mkResp c8BodyS),
            ("http://site.com/a".toList, mkResp c8BodyA),
            ("http://site.com/b".toList, mkResp c8BodyB),
            ("http://site.com/c".toList, mkResp c8BodyC),
            ("http://other.com/x".toList, mkResp c8BodyX),
            ("http://elsewhere.org/y".toList, mkResp c8BodyY)]
    now := 0, maxRetries := 1, maxPages := 10 }

/-- Start URL whose registrable domain is example.com. -/
def c8bStart : Str := "http://example.com/".toList

/-- A subdomain link: its registrable domain is also example.com, and
`example.com` is a suffix of its host — but its full hostname differs. -/
def c8bLink : Str := "http://blog.example.com/p".toList

/-- A fresh cached Document (written at t = 0) for URL `u` with the given
outbound links.  Cache hits are the only reachable success path of
`scrapeSingleUrl` (the plain-fetch strategy always throws), so the
traversal scenarios are driven through fresh KV entries, which the real
cache-hit code path serves without touching the broken fetch. -/
def cachedDoc (u : Str) (links : List Str) : Doc :=
  { url := u, title := "T".toList, content := "cached page".toList
    links := links, scraped_at := 0, method := "fetch".toList
    contentType := "text/html".toList, contentLength := 11 }

/-- Environment of the subdomain counterexample: fresh cached copies of
the example.com start page (linking only to the blog.example.com page)
and of the blog page itself, read at t = 0. -/
def c8cEnv : Env :=
  { cache := [(cacheKey c8bStart, ⟨cachedDoc c8bStart [c8bLink], 0⟩),
              (cacheKey c8bLink, ⟨cachedDoc c8bLink [], 0⟩)]
    web := []
    now := 0, maxRetries := 1, maxPages := 10 }

/-- Environment of the maxDepth=1 traversal scenario: fresh cached copies
of the start page (3 same-host links, 2 cross-host links; child `a` links
back to the start, a cycle) and of all five linked pages. -/
def c8dEnv : Env :=
  { cache := [(cacheKey c8Start,
                ⟨cachedDoc c8Start
                  ["http://site.com/a".toList, "http://site.com/b".toList,
                   "http://site.com/c".toList, "http://other.com/x".toList,
                   "http://elsewhere.org/y".toList], 0⟩),
              (cacheKey "http://site.com/a".toList,
                ⟨cachedDoc "http://site.com/a".toList [c8Start], 0⟩),
              (cacheKey "http://site.com/b".toList,
                ⟨cachedDoc "http://site.com/b".toList [], 0⟩),
              (cacheKey "http://site.com/c".toList,
                ⟨cachedDoc "http://site.com/c".toList [], 0⟩),
              (cacheKey "http://other.com/x".toList,
                ⟨cachedDoc "http://other.com/x".toList [], 0⟩),
              (cacheKey "http://elsewhere.org/y".toList,
                ⟨cachedDoc "http://elsewhere.org/y".toList [], 0⟩)]
    web := []
    now := 0, maxRetries := 1, maxPages := 10 }

/-- The keyword loop of `calculateProphecyScore`, re-expressed as a fold
over the (count, high-priority?) pairs of each keyword.  This separates the
`Nat`/`Bool` scanning (evaluable by `decide`) from the rational weighting. -/
theorem keyword_fold_eq_pairs (cfg : ScoringConfig) (text : Str) :
    cfg.prophecy_keywords.foldl (fun acc kw => acc + keywordScore cfg text kw) 0 =
    ((cfg.prophecy_keywords.map
        (fun kw => (countWholeWord (lowerS kw) text, isHighPriority cfg (lowerS kw)))).foldl
      (fun acc p => acc +
        (if p.1 > 0 then
          (p.1 : ℚ) * (if p.2 then cfg.keyword_weights.high else cfg.keyword_weights.medium)
         else 0)) 0) := by
  rw [List.foldl_map]
  rfl

/-- The bonus loop of `calculateProphecyScore`, re-expressed over the list
of title-substring test results. -/
theorem bonus_fold_eq_flags (cfg : ScoringConfig) (titleLower : Str) :
    titleBonus cfg titleLower =
    ((cfg.high_priority_keywords.map (fun kw => containsSub (lowerS kw) titleLower)).foldl
      (fun acc b => if b then acc + 1 else acc) 0) := by
  rw [titleBonus, List.foldl_map]

/-- The C1 entry scores exactly 7 against the C1 table (helper, shared by
the C1 and C3 results). -/
theorem score_c1Item : calculateProphecyScore c1Config c1Item = 7 := by
  have hkw : c1Config.prophecy_keywords.map
      (fun kw => (countWholeWord (lowerS kw)
          (lowerS (c1Item.title ++ ' ' :: c1Item.description)),
        isHighPriority c1Config (lowerS kw))) =
      [(1, false), (1, true), (1, true)] := by decide
  have hbn : c1Config.high_priority_keywords.map
      (fun kw => containsSub (lowerS kw) (lowerS c1Item.title)) =
      [true, true] := by decide
  rw [calculateProphecyScore, keyword_fold_eq_pairs, hkw, bonus_fold_eq_flags, hbn]
  simp only [List.foldl]
  rw [round2]
  norm_num [c1Config]

/-- The keyword-free entry scores 0 against the C1 table (helper). -/
theorem score_c3ItemB : calculateProphecyScore c1Config c3ItemB = 0 := by
  have hkw : c1Config.prophecy_keywords.map
      (fun kw => (countWholeWord (lowerS kw)
          (lowerS (c3ItemB.title ++ ' ' :: c3ItemB.description)),
        isHighPriority c1Config (lowerS kw))) =
      [(0, false), (0, true), (0, true)] := by decide
  have hbn : c1Config.high_priority_keywords.map
      (fun kw => containsSub (lowerS kw) (lowerS c3ItemB.title)) =
      [false, false] := by decide
  rw [calculateProphecyScore, keyword_fold_eq_pairs, hkw, bonus_fold_eq_flags, hbn]
  simp only [List.foldl]
  rw [round2]
  norm_num

/-- With an empty keyword table every entry scores 0 (helper). -/
theorem score_c9Config (it : FeedItem) : calculateProphecyScore c9Config it = 0 := by
  rw [calculateProphecyScore]
  simp only [c9Config, List.foldl_nil, titleBonus]
  rw [round2]
  norm_num

/-- With the empty table and threshold 0 every parsed entry qualifies
(helper). -/
theorem high_c9 (feed : Feed) :
    (checkSingleFeed c9Config feed 0).high_score_items =
      feed.items.map (fun it => ⟨it, 0⟩) := by
  have hmap : scoreItems c9Config feed.items = feed.items.map (fun it => ⟨it, 0⟩) := by
    unfold scoreItems
    exact List.map_congr_left (fun it _ => by rw [score_c9Config])
  rw [checkSingleFeed]
  simp only [hmap]
  apply List.filter_eq_self.mpr
  intro s hs
  obtain ⟨it, _, rfl⟩ := List.mem_map.mp hs
  simp

/-- A step of the feed loop only appends to the accumulated summary
(helper: feeds are processed independently of the accumulator). -/
theorem step_merge (th : ℚ) (cfg : ScoringConfig) (ff : Str → Except Str Str)
    (send : Job → Option Str) (acc : RSSummary) (f : FeedCfg) :
    checkRSSFeedsStep th cfg ff send acc f =
      mergeSummary acc (checkRSSFeedsStep th cfg ff send emptySummary f) := by
  cases acc
  rw [checkRSSFeedsStep, checkRSSFeedsStep]
  cases hf : ff f.url <;> simp [mergeSummary, emptySummary]

/-- `mergeSummary` with the empty summary on the right (helper). -/
theorem merge_empty_right (a : RSSummary) : mergeSummary a emptySummary = a := by
  cases a
  simp [mergeSummary, emptySummary]

/-- `mergeSummary` is associative (helper). -/
theorem merge_assoc (a b c : RSSummary) :
    mergeSummary (mergeSummary a b) c = mergeSummary a (mergeSummary b c) := by
  cases a
  cases b
  cases c
  simp [mergeSummary, Nat.add_assoc]

/-- Running the feed loop from any accumulator equals merging the
accumulator with a run from the empty summary (helper). -/
theorem run_from_acc (th : ℚ) (cfg : ScoringConfig) (ff : Str → Except Str Str)
    (send : Job → Option Str) (fs : List FeedCfg) (acc : RSSummary) :
    fs.foldl (checkRSSFeedsStep th cfg ff send) acc =
      mergeSummary acc (fs.foldl (checkRSSFeedsStep th cfg ff send) emptySummary) := by
  induction fs generalizing acc with
  | nil => simp [merge_empty_right]
  | cons f rest ih =>
    simp only [List.foldl_cons]
    rw [ih (checkRSSFeedsStep th cfg ff send acc f),
      ih (checkRSSFeedsStep th cfg ff send emptySummary f),
      step_merge, merge_assoc]

/-- The plain-fetch strategy always throws: a missing network entry
propagates the fetch rejection, a resolved fetch hits the
temporal-dead-zone read of `response`, and zero retries throw the
undefined last error (helper). -/
theorem scrapeWithFetch_fails (env : Env) (u : Str) :
    ∃ e, scrapeWithFetch env u = .error e := by
  cases hmr : env.maxRetries with
  | zero =>
    refine ⟨"undefined".toList, ?_⟩
    rw [scrapeWithFetch, hmr]
    rfl
  | succ n =>
    cases hl : env.web.lookup u with
    | none =>
      refine ⟨"fetch failed".toList, ?_⟩
      rw [scrapeWithFetch, hmr]
      simp [retryFetch, fetchResp, hl]
    | some resp =>
      refine ⟨tdzMsg, ?_⟩
      rw [scrapeWithFetch, hmr]
      simp [retryFetch, fetchResp, hl]

/-- Every strategy of the chain throws (fetch via the dead-zone bug, the
other two because they are unconfigured), so the chain always exhausts
carrying the LAST strategy's error — the API one (helper). -/
theorem chain_always_fails (env : Env) (u : Str) :
    runChain env u strategyList none =
      .error "All scraping strategies failed. Last error: API scraping not configured".toList := by
  obtain ⟨e0, he0⟩ := scrapeWithFetch_fails env u
  simp only [strategyList, runChain, he0, scrapeWithBrowser, scrapeWithAPI]
  rfl

/-- On any cache miss `scrapeSingleUrl` throws the exhaustion error and
leaves the cache untouched: no Document is ever produced or written by the
strategy chain (helper). -/
theorem scrape_miss_error (env : Env) (u : Str)
    (hmiss : checkCache env.cache env.now u = none) :
    scrapeSingleUrl env u =
      (.error "All scraping strategies failed. Last error: API scraping not configured".toList,
        env.cache) := by
  rw [scrapeSingleUrl, hmiss, chain_always_fails env u]

/-- Filtering with a stronger predicate keeps at most as many elements
(helper). -/
theorem length_filter_mono {α : Type} (l : List α) (p q : α → Bool)
    (h : ∀ x, q x = true → p x = true) :
    (l.filter q).length ≤ (l.filter p).length := by
  induction l with
  | nil => simp
  | cons a t ih =>
    by_cases hq : q a = true
    · have hp := h a hq
      simp only [List.filter_cons, hq, hp, if_pos, List.length_cons]
      exact Nat.succ_le_succ ih
    · have hq2 : q a = false := Bool.eq_false_iff.mpr hq
      by_cases hp : p a = true
      · simp only [List.filter_cons, hq2, hp, if_pos, Bool.false_eq_true, if_false,
          List.length_cons]
        exact ih.trans (Nat.le_succ _)
      · have hp2 : p a = false := Bool.eq_false_iff.mpr hp
        simpa only [List.filter_cons, hq2, hp2, Bool.false_eq_true, if_false] using ih

/-- Filtering with a stronger predicate that strictly loses a member keeps
strictly fewer elements (helper). -/
theorem length_filter_strict {α : Type} (l : List α) (p q : α → Bool)
    (h : ∀ x, q x = true → p x = true) (x : α) (hx : x ∈ l)
    (hpx : p x = true) (hqx : q x = false) :
    (l.filter q).length < (l.filter p).length := by
  induction l with
  | nil => cases hx
  | cons a t ih =>
    rcases List.mem_cons.mp hx with rfl | hxt
    · have hmono : (t.filter q).length ≤ (t.filter p).length := length_filter_mono t p q h
      simp only [List.filter_cons, hpx, hqx, if_pos, Bool.false_eq_true, if_false,
        List.length_cons]
      exact Nat.lt_succ_of_le hmono
    · have hlt := ih hxt
      by_cases hq : q a = true
      · have hp := h a hq
        simp only [List.filter_cons, hq, hp, if_pos, List.length_cons]
        exact Nat.succ_lt_succ hlt
      · have hq2 : q a = false := Bool.eq_false_iff.mpr hq
        by_cases hp : p a = true
        · simp only [List.filter_cons, hq2, hp, if_pos, Bool.false_eq_true, if_false,
            List.length_cons]
          exact hlt.trans (Nat.lt_succ_self _)
        · have hp2 : p a = false := Bool.eq_false_iff.mpr hp
          simpa only [List.filter_cons, hq2, hp2, Bool.false_eq_true, if_false] using hlt

/-- A successful association-list lookup exhibits a member with that key
(helper). -/
theorem lookup_some_mem {β : Type} (k : Str) (v : β) :
    ∀ l : List (Str × β), l.lookup k = some v → (k, v) ∈ l := by
  intro l
  induction l with
  | nil => intro h; cases h
  | cons e t ih =>
    obtain ⟨k1, b1⟩ := e
    intro h
    rw [List.lookup] at h
    by_cases hk : (k == k1) = true
    · simp only [hk] at h
      have hke : k = k1 := eq_of_beq hk
      have hv : v = b1 := by cases h; rfl
      rw [hke, hv]
      exact List.mem_cons_self _ _
    · have hk2 : (k == k1) = false := Bool.eq_false_iff.mpr hk
      simp only [hk2] at h
      exact List.mem_cons_of_mem _ (ih h)

/-- A fresh cache hit exhibits a cache member whose stored value is the
returned Document (helper). -/
theorem checkCache_some_val (cache : List (Str × CacheEntry)) (now : Nat) (u : Str)
    (d : Doc) (h : checkCache cache now u = some d) :
    ∃ e ∈ cache, e.1 = cacheKey u ∧ e.2.value = d := by
  rw [checkCache] at h
  cases hl : cache.lookup (cacheKey u) with
  | none =>
    simp only [hl] at h
    cases h
  | some e =>
    simp only [hl] at h
    refine ⟨(cacheKey u, e), lookup_some_mem _ _ _ hl, rfl, ?_⟩
    by_cases h1 : now < e.putTime + ttlMs
    · by_cases h2 : now - e.value.scraped_at < ttlMs
      · rw [if_pos h1, if_pos h2] at h
        cases h
        rfl
      · rw [if_pos h1, if_neg h2] at h
        cases h
    · rw [if_neg h1] at h
      cases h

/-- A successful `scrapeSingleUrl` names a URL present in the cache (under
its key) or in the network table: the only reachable success path is the
cache hit (helper for termination). -/
theorem scrape_ok_source (env : Env) (u : Str) (out : ScrapeOutcome)
    (h : (scrapeSingleUrl env u).1 = .ok out) :
    (∃ e ∈ env.cache, e.1 = cacheKey u) ∨ (∃ r ∈ env.web, r.1 = u) := by
  cases hc : checkCache env.cache env.now u with
  | some d =>
    left
    obtain ⟨e, he, hek, _⟩ := checkCache_some_val env.cache env.now u d hc
    exact ⟨e, he, hek⟩
  | none =>
    rw [scrape_miss_error env u hc] at h
    cases h

/-- A successful scrape's Document comes from the cache, so its link count
is at most `linksSum env` (helper for termination). -/
theorem scrape_ok_links_le (env : Env) (u : Str) (out : ScrapeOutcome)
    (h : (scrapeSingleUrl env u).1 = .ok out) :
    out.data.links.length ≤ linksSum env := by
  cases hc : checkCache env.cache env.now u with
  | some d =>
    simp only [scrapeSingleUrl, hc] at h
    have hout : out = ⟨true, d⟩ := by cases h; rfl
    obtain ⟨e, he, _, hev⟩ := checkCache_some_val env.cache env.now u d hc
    have hmem : e.2.value.links.length ∈
        env.cache.map (fun x => x.2.value.links.length) :=
      List.mem_map.mpr ⟨e, he, rfl⟩
    have hle : e.2.value.links.length ≤
        (env.cache.map (fun x => x.2.value.links.length)).sum :=
      List.single_le_sum (fun x _ => Nat.zero_le x) _ hmem
    rw [hout, linksSum]
    rw [hev] at hle
    exact le_trans hle (Nat.le_add_right _ _)
  | none =>
    rw [scrape_miss_error env u hc] at h
    cases h

/-- Growing the visited set weakens the cache-side filter (helper). -/
theorem cacheFilter_imp (visited : List Str) (u : Str) (x : Str × CacheEntry)
    (hx : (!(u :: visited).any (fun w => x.1 == cacheKey w)) = true) :
    (!visited.any (fun w => x.1 == cacheKey w)) = true := by
  simp only [List.any_cons, Bool.not_eq_true', Bool.or_eq_false_iff] at hx
  simp only [Bool.not_eq_true', hx.2]

/-- Growing the visited set weakens the web-side filter (helper). -/
theorem webFilter_imp (visited : List Str) (u : Str) (x : Str × HttpResp)
    (hx : (!(u :: visited).contains x.1) = true) :
    (!visited.contains x.1) = true := by
  simp only [List.contains_cons, Bool.not_eq_true', Bool.or_eq_false_iff] at hx
  simp only [Bool.not_eq_true', hx.2]

/-- Visiting more URLs never increases `newCount` (helper). -/
theorem newCount_cons_le (env : Env) (visited : List Str) (u : Str) :
    newCount env (u :: visited) ≤ newCount env visited := by
  rw [newCount, newCount]
  have h1 := length_filter_mono env.cache
    (fun e => !visited.any (fun w => e.1 == cacheKey w))
    (fun e => !(u :: visited).any (fun w => e.1 == cacheKey w))
    (cacheFilter_imp visited u)
  have h2 := length_filter_mono env.web
    (fun r => !visited.contains r.1)
    (fun r => !(u :: visited).contains r.1)
    (webFilter_imp visited u)
  omega

/-- Visiting a URL that the cache or the web can serve strictly decreases
`newCount` (helper). -/
theorem newCount_cons_lt (env : Env) (visited : List Str) (u : Str)
    (hu : u ∉ visited)
    (hsrc : (∃ e ∈ env.cache, e.1 = cacheKey u) ∨ (∃ r ∈ env.web, r.1 = u)) :
    newCount env (u :: visited) < newCount env visited := by
  rw [newCount, newCount]
  rcases hsrc with ⟨e, he, hek⟩ | ⟨r, hr, hru⟩
  · have hpx : (!visited.any (fun w => e.1 == cacheKey w)) = true := by
      simp only [Bool.not_eq_true', List.any_eq_false, hek]
      intro w hw hc
      have hc2 : cacheKey u = cacheKey w := eq_of_beq hc
      rw [cacheKey, cacheKey] at hc2
      exact hu (List.append_cancel_left hc2 ▸ hw)
    have hqx : (!(u :: visited).any (fun w => e.1 == cacheKey w)) = false := by
      simp [List.any_cons, hek]
    have hstrict := length_filter_strict env.cache
      (fun x => !visited.any (fun w => x.1 == cacheKey w))
      (fun x => !(u :: visited).any (fun w => x.1 == cacheKey w))
      (cacheFilter_imp visited u) e he hpx hqx
    have hmono := length_filter_mono env.web
      (fun r => !visited.contains r.1)
      (fun r => !(u :: visited).contains r.1)
      (webFilter_imp visited u)
    omega
  · have hpx : (!visited.contains r.1) = true := by
      simp only [Bool.not_eq_true', hru]
      simpa using hu
    have hqx : (!(u :: visited).contains r.1) = false := by
      simp [List.contains_cons, hru]
    have hstrict := length_filter_strict env.web
      (fun x => !visited.contains x.1)
      (fun x => !(u :: visited).contains x.1)
      (webFilter_imp visited u) r hr hpx hqx
    have hmono := length_filter_mono env.cache
      (fun e => !visited.any (fun w => e.1 == cacheKey w))
      (fun e => !(u :: visited).any (fun w => e.1 == cacheKey w))
      (cacheFilter_imp visited u)
    omega

/-- With fuel exceeding the measure, the crawl loop always ends in a state
whose `while` condition is false: the frontier is empty or the page cap is
reached (helper: this is the termination argument for the source's
unbounded `while` loop). -/
theorem crawlLoop_reaches_stop (env : Env) (domain : Option Str) (maxDepth cap : Nat) :
    ∀ fuel st, crawlMeasure env st < fuel →
      crawlStop cap (crawlLoop env domain maxDepth cap fuel st) := by
  intro fuel
  induction fuel with
  | zero => intro st h; exact absurd h (Nat.not_lt_zero _)
  | succ fuel ih =>
    intro st hm
    rw [crawlLoop]
    by_cases hcap : st.results.length < cap
    · rw [if_pos hcap]
      cases hq : st.queue with
      | nil => exact Or.inl hq
      | cons head rest =>
        obtain ⟨url, depth⟩ := head
        have hqlen : st.queue.length = rest.length + 1 := by rw [hq]; rfl
        dsimp only
        by_cases hv : (st.visited.contains url || decide (maxDepth < depth)) = true
        · rw [if_pos hv]
          apply ih
          rw [crawlMeasure] at hm ⊢
          simp only
          omega
        · rw [if_neg hv]
          have hnv : st.visited.contains url = false := by
            cases hb : st.visited.contains url
            · rfl
            · exact absurd (by rw [hb]; simp) hv
          have hnotmem : url ∉ st.visited := by simpa using hnv
          cases hs : (scrapeSingleUrl env url).1 with
          | ok out =>
            simp only [hs]
            apply ih
            have hc2 := newCount_cons_lt env st.visited url hnotmem
              (scrape_ok_source env url out hs)
            have hlinks := scrape_ok_links_le env url out hs
            have hnl : (if depth < maxDepth then
                out.data.links.filter
                  (fun l => extractDomain l == domain && !(url :: st.visited).contains l)
              else []).length ≤ linksSum env := by
              by_cases hd : depth < maxDepth
              · rw [if_pos hd]
                exact le_trans (List.length_filter_le _ _) hlinks
              · rw [if_neg hd]
                exact Nat.zero_le _
            rw [crawlMeasure] at hm ⊢
            simp only [List.length_append, List.length_map]
            obtain ⟨c0, hc0⟩ : ∃ c0, newCount env st.visited = c0 + 1 :=
              ⟨newCount env st.visited - 1, by omega⟩
            have hle0 : newCount env (url :: st.visited) ≤ c0 := by omega
            have hKle : (linksSum env + 1) * newCount env (url :: st.visited) ≤
                (linksSum env + 1) * c0 := Nat.mul_le_mul_left _ hle0
            have hKc : (linksSum env + 1) * newCount env st.visited =
                (linksSum env + 1) * c0 + (linksSum env + 1) := by
              rw [hc0, Nat.mul_succ]
            omega
          | error e =>
            simp only [hs]
            apply ih
            have hcle := newCount_cons_le env st.visited url
            have hKle : (linksSum env + 1) * newCount env (url :: st.visited) ≤
                (linksSum env + 1) * newCount env st.visited :=
              Nat.mul_le_mul_left _ hcle
            rw [crawlMeasure] at hm ⊢
            simp only
            omega
    · rw [if_neg hcap]
      exact Or.inr (Nat.le_of_not_lt hcap)

/-- The crawl loop preserves the traversal invariants (helper for C2 and
C8). -/
theorem crawlLoop_preserves_inv (env : Env) (startUrl : Str) (domain : Option Str)
    (maxDepth cap : Nat) :
    ∀ fuel st, crawlInv startUrl domain maxDepth cap st →
      crawlInv startUrl domain maxDepth cap (crawlLoop env domain maxDepth cap fuel st) := by
  intro fuel
  induction fuel with
  | zero =>
    intro st h
    simpa only [crawlLoop] using h
  | succ fuel ih =>
    intro st hinv
    obtain ⟨h1, h2, h3, h4, h5, h6, h7, h8⟩ := hinv
    rw [crawlLoop]
    by_cases hcap : st.results.length < cap
    · rw [if_pos hcap]
      cases hq : st.queue with
      | nil => exact ⟨h1, h2, h3, h4, h5, h6, h7, h8⟩
      | cons head rest =>
        obtain ⟨url, depth⟩ := head
        have hhead7 : url = startUrl ∨ extractDomain url = domain :=
          h7 (url, depth) (by rw [hq]; exact List.mem_cons_self _ _)
        have hrest4 : ∀ q ∈ rest, q.2 ≤ maxDepth :=
          fun q hqm => h4 q (by rw [hq]; exact List.mem_cons_of_mem _ hqm)
        have hrest7 : ∀ q ∈ rest, q.1 = startUrl ∨ extractDomain q.1 = domain :=
          fun q hqm => h7 q (by rw [hq]; exact List.mem_cons_of_mem _ hqm)
        dsimp only
        by_cases hv : (st.visited.contains url || decide (maxDepth < depth)) = true
        · rw [if_pos hv]
          exact ih _ ⟨h1, h2, h3, hrest4, h5, h6, hrest7, h8⟩
        · rw [if_neg hv]
          have hnv : st.visited.contains url = false := by
            cases hb : st.visited.contains url
            · rfl
            · exact absurd (by rw [hb]; simp) hv
          have hnotmem : url ∉ st.visited := by simpa using hnv
          have hdep : depth ≤ maxDepth := by
            have : decide (maxDepth < depth) = false := by
              cases hb : decide (maxDepth < depth)
              · rfl
              · exact absurd (by rw [hb]; simp) hv
            exact Nat.le_of_not_lt (of_decide_eq_false this)
          have hnolog : url ∉ st.log.map Prod.fst := by
            intro hmem
            obtain ⟨e, he, hee⟩ := List.mem_map.mp hmem
            exact hnotmem (hee ▸ h2 e he)
          have hlognodup : ((st.log ++ [(url, depth)]).map Prod.fst).Nodup := by
            rw [List.map_append]
            apply List.nodup_append.mpr
            refine ⟨h1, List.nodup_singleton _, ?_⟩
            intro a ha hb
            simp only [List.map_cons, List.map_nil, List.mem_singleton] at hb
            exact hnolog (hb ▸ ha)
          have hlogvis : ∀ e ∈ st.log ++ [(url, depth)], e.1 ∈ url :: st.visited := by
            intro e he
            rcases List.mem_append.mp he with he | he
            · exact List.mem_cons_of_mem _ (h2 e he)
            · simp only [List.mem_singleton] at he
              rw [he]
              exact List.mem_cons_self _ _
          have hlogdep : ∀ e ∈ st.log ++ [(url, depth)], e.2 ≤ maxDepth := by
            intro e he
            rcases List.mem_append.mp he with he | he
            · exact h3 e he
            · simp only [List.mem_singleton] at he
              rw [he]
              exact hdep
          have hlogdom : ∀ e ∈ st.log ++ [(url, depth)],
              e.1 = startUrl ∨ extractDomain e.1 = domain := by
            intro e he
            rcases List.mem_append.mp he with he | he
            · exact h8 e he
            · simp only [List.mem_singleton] at he
              rw [he]
              exact hhead7
          cases hs : (scrapeSingleUrl env url).1 with
          | error e =>
            simp only [hs]
            exact ih _ ⟨hlognodup, hlogvis, hlogdep, hrest4, h5, h6, hrest7, hlogdom⟩
          | ok out =>
            simp only [hs]
            apply ih
            refine ⟨hlognodup, hlogvis, hlogdep, ?_, ?_, ?_, ?_, hlogdom⟩
            · intro q hqm
              rcases List.mem_append.mp hqm with hqm | hqm
              · exact hrest4 q hqm
              · obtain ⟨l, hl, rfl⟩ := List.mem_map.mp hqm
                by_cases hd : depth < maxDepth
                · exact hd
                · rw [if_neg hd] at hl
                  cases hl
            · simp only [List.length_append, List.length_cons, List.length_nil]
              omega
            · intro r hr
              rcases List.mem_append.mp hr with hr | hr
              · exact h6 r hr
              · simp only [List.mem_singleton] at hr
                rw [hr]
                exact hdep
            · intro q hqm
              rcases List.mem_append.mp hqm with hqm | hqm
              · exact hrest7 q hqm
              · obtain ⟨l, hl, rfl⟩ := List.mem_map.mp hqm
                by_cases hd : depth < maxDepth
                · rw [if_pos hd] at hl
                  have hcond := (List.mem_filter.mp hl).2
                  simp only [Bool.and_eq_true] at hcond
                  exact Or.inr (eq_of_beq hcond.1)
                · rw [if_neg hd] at hl
                  cases hl
    · rw [if_neg hcap]
      exact ⟨h1, h2, h3, h4, h5, h6, h7, h8⟩

/-- In the empty environment (no cache, no network) every scrape throws
the strategy-exhaustion error (helper for C10). -/
theorem scrape_emptyEnv_fails (now mr mp : Nat) (u : Str) :
    (scrapeSingleUrl ⟨[], [], now, mr, mp⟩ u).1 =
      .error "All scraping strategies failed. Last error: API scraping not configured".toList := by
  obtain ⟨e0, he0⟩ : ∃ e0, scrapeWithFetch ⟨[], [], now, mr, mp⟩ u = .error e0 := by
    cases mr with
    | zero => exact ⟨"undefined".toList, rfl⟩
    | succ n => exact ⟨"fetch failed".toList, rfl⟩
  have hmiss : checkCache ([] : List (Str × CacheEntry)) now u = none := rfl
  have hrc : runChain ⟨[], [], now, mr, mp⟩ u strategyList none =
      .error "All scraping strategies failed. Last error: API scraping not configured".toList := by
    simp only [strategyList, runChain, he0, scrapeWithBrowser, scrapeWithAPI]
    rfl
  simp only [scrapeSingleUrl, hmiss, hrc]

/-- When every scrape fails, the loop never accumulates results (helper
for C10). -/
theorem crawlLoop_results_of_all_fail (env : Env) (domain : Option Str)
    (maxDepth cap : Nat)
    (hfail : ∀ u, ∃ e, (scrapeSingleUrl env u).1 = .error e) :
    ∀ fuel st, (crawlLoop env domain maxDepth cap fuel st).results = st.results := by
  intro fuel
  induction fuel with
  | zero => intro st; rw [crawlLoop]
  | succ fuel ih =>
    intro st
    rw [crawlLoop]
    by_cases hcap : st.results.length < cap
    · rw [if_pos hcap]
      cases hq : st.queue with
      | nil => rfl
      | cons head rest =>
        obtain ⟨url, depth⟩ := head
        dsimp only
        by_cases hv : (st.visited.contains url || decide (maxDepth < depth)) = true
        · rw [if_pos hv]
          exact ih _
        · rw [if_neg hv]
          obtain ⟨e, he⟩ := hfail url
          simp only [he]
          exact ih _
    · rw [if_neg hcap]

end Scrape

/-- C1: the entry titled "Biblical prophecy about end times reveals..."
scores exactly 7.0 against the given table (1.0 for `biblical` + 2.0 for
`prophecy` + 2.0 for `end times` + two 1.0 title bonuses), and with
threshold 5.0 it is included in `high_score_items`. -/
theorem Scrape.c1_score_is_seven :
    Scrape.calculateProphecyScore Scrape.c1Config Scrape.c1Item = 7 ∧
    (⟨Scrape.c1Item, 7⟩ : Scrape.ScoredItem) ∈
      (Scrape.checkSingleFeed Scrape.c1Config
        ⟨"Feed".toList, [Scrape.c1Item]⟩ 5).high_score_items := by
  refine ⟨Scrape.score_c1Item, ?_⟩
  simp [Scrape.checkSingleFeed, Scrape.scoreItems, Scrape.score_c1Item, List.filter]
  norm_num

/-- C3: `high_score_items` is exactly the scored entries whose score is at
least the threshold: membership is equivalent to being a scored entry with
`threshold ≤ score` (so a score exactly at the threshold is included), any
scored entry strictly below the threshold is excluded, and the included
entries form a sublist of the scored list (feed order, not sorted). -/
theorem Scrape.c3_threshold_filter (cfg : Scrape.ScoringConfig) (feed : Scrape.Feed) (t : ℚ) :
    (∀ s : Scrape.ScoredItem,
      s ∈ (Scrape.checkSingleFeed cfg feed t).high_score_items ↔
        s ∈ (Scrape.checkSingleFeed cfg feed t).scored ∧ t ≤ s.score) ∧
    ((Scrape.checkSingleFeed cfg feed t).high_score_items).Sublist
      ((Scrape.checkSingleFeed cfg feed t).scored) ∧
    (∀ s : Scrape.ScoredItem,
      s ∈ (Scrape.checkSingleFeed cfg feed t).scored → s.score < t →
        s ∉ (Scrape.checkSingleFeed cfg feed t).high_score_items) := by
  refine ⟨?_, ?_, ?_⟩
  · intro s
    simp [Scrape.checkSingleFeed, List.mem_filter]
  · exact List.filter_sublist _
  · intro s _ hlt hmem
    rw [Scrape.checkSingleFeed] at hmem
    simp only [List.mem_filter, decide_eq_true_eq] at hmem
    exact absurd hmem.2 (not_le.mpr hlt)

/-- Witness for C3 at a concrete feed: with threshold 7, the entry scoring
exactly 7 is included and the entry scoring 0 is excluded. -/
theorem Scrape.c3_threshold_filter_witness :
    (⟨Scrape.c1Item, 7⟩ : Scrape.ScoredItem) ∈
      (Scrape.checkSingleFeed Scrape.c1Config
        ⟨"F".toList, [Scrape.c1Item, Scrape.c3ItemB]⟩ 7).high_score_items ∧
    (⟨Scrape.c3ItemB, 0⟩ : Scrape.ScoredItem) ∉
      (Scrape.checkSingleFeed Scrape.c1Config
        ⟨"F".toList, [Scrape.c1Item, Scrape.c3ItemB]⟩ 7).high_score_items := by
  have h := Scrape.c3_threshold_filter Scrape.c1Config
    ⟨"F".toList, [Scrape.c1Item, Scrape.c3ItemB]⟩ 7
  constructor
  · exact (h.1 ⟨Scrape.c1Item, 7⟩).mpr
      ⟨by simp [Scrape.checkSingleFeed, Scrape.scoreItems, Scrape.score_c1Item], le_refl 7⟩
  · exact h.2.2 ⟨Scrape.c3ItemB, 0⟩
      (by simp [Scrape.checkSingleFeed, Scrape.scoreItems, Scrape.score_c3ItemB])
      (by norm_num)

/-- C6 counterexample: the feed `c6Xml` contains one item block holding a
title element (extracted as "Hello") but no link; the claim predicts the
entry is still included, yet `parseRSSFeed` discards it — the parser
requires BOTH a title and a link (`if (title && link)`). -/
theorem Scrape.c6_counterexample :
    Scrape.itemBlocks Scrape.c6Xml = ["<title>Hello</title>".toList] ∧
    (Scrape.elemCI "title".toList ["title".toList] false
        "<title>Hello</title>".toList).map (fun r => Scrape.cleanText r.2) =
      some "Hello".toList ∧
    Scrape.parseItemBlock "<title>Hello</title>".toList = none ∧
    (Scrape.parseRSSFeed Scrape.c6Xml).items = [] := by
  refine ⟨by decide, by decide, by decide, by decide⟩

/-- C6 amended: an item/entry block is included only if it yields BOTH a
non-empty title and a non-empty link; every entry of the parser's output
has both, so a block with only one of the two is discarded. -/
theorem Scrape.c6_amended_both_required (xml : Scrape.Str) :
    ∀ e ∈ (Scrape.parseRSSFeed xml).items, e.title ≠ [] ∧ e.link ≠ [] := by
  intro e he
  simp only [Scrape.parseRSSFeed, List.mem_filterMap] at he
  obtain ⟨b, _, hpb⟩ := he
  rw [Scrape.parseItemBlock] at hpb
  split at hpb
  · next hcond =>
    cases hpb
    have h := hcond
    simp only [Bool.and_eq_true, Bool.not_eq_true', List.isEmpty_eq_false] at h
    exact h
  · exact absurd hpb (by simp)

/-- Witness for C6 amended: the entry parsed from the well-formed feed has
a non-empty title and link. -/
theorem Scrape.c6_amended_both_required_witness :
    Scrape.c6GoodEntry.title ≠ [] ∧ Scrape.c6GoodEntry.link ≠ [] :=
  Scrape.c6_amended_both_required Scrape.c6GoodXml Scrape.c6GoodEntry (by decide)

/-- C9 counterexample: both entries of the feed qualify (threshold 0), the
queue send for the first entry fails, and then the second qualifying entry
is never dispatched: the only attempted job is the first one, no item is
recorded as triggered, and the failure is recorded as the feed's error —
contradicting the claim that the remaining entries are still dispatched. -/
theorem Scrape.c9_counterexample :
    (Scrape.checkSingleFeed Scrape.c9Config
        (Scrape.parseRSSFeed Scrape.c9Xml) 0).high_score_items =
      [⟨Scrape.c9E1, 0⟩, ⟨Scrape.c9E2, 0⟩] ∧
    (Scrape.checkRSSFeeds [Scrape.c9Feed] 0 Scrape.c9Config
        Scrape.c9Fetch Scrape.c9Send).attempts =
      [Scrape.mkJob Scrape.c9Feed.name ⟨Scrape.c9E1, 0⟩] ∧
    (Scrape.checkRSSFeeds [Scrape.c9Feed] 0 Scrape.c9Config
        Scrape.c9Fetch Scrape.c9Send).high_score_items = [] ∧
    (Scrape.checkRSSFeeds [Scrape.c9Feed] 0 Scrape.c9Config
        Scrape.c9Fetch Scrape.c9Send).scrapes_triggered = 0 ∧
    (Scrape.checkRSSFeeds [Scrape.c9Feed] 0 Scrape.c9Config
        Scrape.c9Fetch Scrape.c9Send).errors =
      [(Scrape.c9Feed.name, "queue full".toList)] := by
  have hparse : (Scrape.parseRSSFeed Scrape.c9Xml).items = [Scrape.c9E1, Scrape.c9E2] := by
    decide
  have hhigh : (Scrape.checkSingleFeed Scrape.c9Config
      (Scrape.parseRSSFeed Scrape.c9Xml) 0).high_score_items =
      [⟨Scrape.c9E1, 0⟩, ⟨Scrape.c9E2, 0⟩] := by
    rw [Scrape.high_c9, hparse]
    rfl
  have hfetch : Scrape.c9Fetch Scrape.c9Feed.url = .ok Scrape.c9Xml := by
    rw [Scrape.c9Fetch]
    simp
  have hsend1 : Scrape.c9Send (Scrape.mkJob Scrape.c9Feed.name ⟨Scrape.c9E1, 0⟩) =
      some "queue full".toList := by
    rw [Scrape.c9Send, Scrape.mkJob]
    decide
  have hrun : Scrape.checkRSSFeeds [Scrape.c9Feed] 0 Scrape.c9Config
      Scrape.c9Fetch Scrape.c9Send =
      Scrape.checkRSSFeedsStep 0 Scrape.c9Config Scrape.c9Fetch Scrape.c9Send
        Scrape.emptySummary Scrape.c9Feed := by
    rw [Scrape.checkRSSFeeds]
    rfl
  have hstep : Scrape.checkRSSFeedsStep 0 Scrape.c9Config Scrape.c9Fetch Scrape.c9Send
      Scrape.emptySummary Scrape.c9Feed =
      { feeds_checked := 1, high_score_items := [], scrapes_triggered := 0
        errors := [(Scrape.c9Feed.name, "queue full".toList)]
        attempts := [Scrape.mkJob Scrape.c9Feed.name ⟨Scrape.c9E1, 0⟩] } := by
    rw [Scrape.checkRSSFeedsStep]
    rw [hfetch]
    simp only [hhigh, Scrape.dispatchItems, hsend1, Scrape.emptySummary]
    rfl
  rw [hrun, hstep]
  exact ⟨hhigh, rfl, rfl, rfl, rfl⟩

/-- C9 amended: a queue-send failure for one qualifying entry is recorded
as that feed's error and stops the dispatch of the remaining entries of the
SAME feed (they are neither attempted nor counted); feeds are processed
independently, so the failure does not affect any other feed's checking or
dispatching. -/
theorem Scrape.c9_amended_dispatch :
    (∀ (send : Scrape.Job → Option Scrape.Str) (fName : Scrape.Str)
       (pre : List Scrape.ScoredItem) (s : Scrape.ScoredItem)
       (post : List Scrape.ScoredItem) (err : Scrape.Str),
       (∀ x ∈ pre, send (Scrape.mkJob fName x) = none) →
       send (Scrape.mkJob fName s) = some err →
       Scrape.dispatchItems send fName (pre ++ s :: post) =
         (pre, pre.length, pre.map (Scrape.mkJob fName) ++ [Scrape.mkJob fName s], some err)) ∧
    (∀ (fs1 fs2 : List Scrape.FeedCfg) (th : ℚ) (cfg : Scrape.ScoringConfig)
       (ff : Scrape.Str → Except Scrape.Str Scrape.Str) (send : Scrape.Job → Option Scrape.Str),
       Scrape.checkRSSFeeds (fs1 ++ fs2) th cfg ff send =
         Scrape.mergeSummary (Scrape.checkRSSFeeds fs1 th cfg ff send)
           (Scrape.checkRSSFeeds fs2 th cfg ff send)) := by
  constructor
  · intro send fName pre s post err hpre hs
    induction pre with
    | nil => simp [Scrape.dispatchItems, hs]
    | cons x rest ih =>
      have hx : send (Scrape.mkJob fName x) = none := hpre x (List.mem_cons_self x rest)
      have hrest : ∀ y ∈ rest, send (Scrape.mkJob fName y) = none :=
        fun y hy => hpre y (List.mem_cons_of_mem x hy)
      simp only [List.cons_append, Scrape.dispatchItems, hx, List.append_eq, ih hrest,
        List.length_cons, List.map_cons]
  · intro fs1 fs2 th cfg ff send
    rw [Scrape.checkRSSFeeds, Scrape.checkRSSFeeds, Scrape.checkRSSFeeds,
      List.filter_append, List.foldl_append, Scrape.run_from_acc]

/-- C7 counterexample: a page whose two anchors carry the same absolute
URL yields a link list with that URL twice — `parseHTML` does NOT
deduplicate, contradicting the claim's "duplicate URLs removed". -/
theorem Scrape.c7_counterexample :
    (Scrape.parseHTML Scrape.c7Html).links =
      ["http://x.com/".toList, "http://x.com/".toList] ∧
    ¬ (Scrape.parseHTML Scrape.c7Html).links.Nodup := by
  constructor
  · decide
  · decide

/-- C7 amended: the links output holds only `href` values that parse as
valid absolute URLs, is a sublist of the anchor captures in document order
(duplicates are NOT removed), and has at most 50 entries; the body text is
silently truncated to 50000 characters. -/
theorem Scrape.c7_amended_links (html : Scrape.Str) :
    (∀ l ∈ (Scrape.parseHTML html).links, Scrape.isValidUrl l = true) ∧
    (Scrape.parseHTML html).links.length ≤ 50 ∧
    (Scrape.parseHTML html).links.Sublist (Scrape.anchors html) ∧
    (Scrape.parseHTML html).content.length ≤ 50000 := by
  refine ⟨?_, ?_, ?_, ?_⟩
  · intro l hl
    simp only [Scrape.parseHTML] at hl
    have h2 : l ∈ (Scrape.anchors html).filter Scrape.isValidUrl :=
      List.take_subset _ _ hl
    exact (List.mem_filter.mp h2).2
  · simp only [Scrape.parseHTML]
    exact List.length_take_le _ _
  · simp only [Scrape.parseHTML]
    exact (List.take_sublist _ _).trans (List.filter_sublist _)
  · simp only [Scrape.parseHTML]
    exact List.length_take_le _ _

/-- Witness for C7 amended at the concrete page: its first link is a valid
URL and the list respects the cap. -/
theorem Scrape.c7_amended_links_witness :
    Scrape.isValidUrl "http://x.com/".toList = true ∧
    (Scrape.parseHTML Scrape.c7Html).links.length ≤ 50 :=
  ⟨(Scrape.c7_amended_links Scrape.c7Html).1 "http://x.com/".toList (by decide),
   (Scrape.c7_amended_links Scrape.c7Html).2.1⟩

/-- C4, against the code as written: a `put` immediately followed by a
`get` while the entry's age `now − scraped_at` is strictly below the 24h
TTL returns the very Document, and once the age reaches the TTL the `get`
is absent — these parts of the claim hold.  But the claim's final part
("the fetch strategy chain is invoked normally, overwriting the entry on
success") never comes to pass: on EVERY cache miss the chain throws and
leaves the cache untouched, because the plain-fetch retry closure reads
`response.ok` while `response` is uninitialized (the fetch result is bound
to `res`), so even a live HTTP 200 text/html page (the concrete `c4Env`)
yields the exhaustion error and no overwrite. -/
theorem Scrape.c4_cache_round_trip_bug :
    (∀ (cache : List (Scrape.Str × Scrape.CacheEntry)) (u : Scrape.Str)
       (d : Scrape.Doc) (now : Nat),
       now - d.scraped_at < Scrape.ttlMs →
       Scrape.checkCache (Scrape.cacheResult cache d.scraped_at u d) now u = some d) ∧
    (∀ (cache : List (Scrape.Str × Scrape.CacheEntry)) (u : Scrape.Str)
       (d : Scrape.Doc) (now : Nat),
       Scrape.ttlMs ≤ now - d.scraped_at →
       Scrape.checkCache (Scrape.cacheResult cache d.scraped_at u d) now u = none) ∧
    (∀ (env : Scrape.Env) (u : Scrape.Str),
       Scrape.checkCache env.cache env.now u = none →
       (Scrape.scrapeSingleUrl env u).1 =
         .error "All scraping strategies failed. Last error: API scraping not configured".toList ∧
       (Scrape.scrapeSingleUrl env u).2 = env.cache) ∧
    (Scrape.c4Resp.ok = true ∧
      Scrape.containsSub "text/html".toList Scrape.c4Resp.contentType = true ∧
      Scrape.c4Env.web.lookup "http://c.com/".toList = some Scrape.c4Resp ∧
      (Scrape.scrapeSingleUrl Scrape.c4Env "http://c.com/".toList).1 =
        .error "All scraping strategies failed. Last error: API scraping not configured".toList ∧
      (Scrape.scrapeSingleUrl Scrape.c4Env "http://c.com/".toList).2 = Scrape.c4Env.cache) := by
  refine ⟨?_, ?_, ?_, ?_⟩
  · intro cache u d now h
    have hl : List.lookup (Scrape.cacheKey u)
        (Scrape.cacheResult cache d.scraped_at u d) = some ⟨d, d.scraped_at⟩ := by
      simp [Scrape.cacheResult, List.lookup]
    rw [Scrape.checkCache, hl]
    have h1 : now < d.scraped_at + Scrape.ttlMs := by
      simp only [Scrape.ttlMs] at h ⊢
      omega
    simp only [h1, if_true, h, if_pos]
  · intro cache u d now h
    have hl : List.lookup (Scrape.cacheKey u)
        (Scrape.cacheResult cache d.scraped_at u d) = some ⟨d, d.scraped_at⟩ := by
      simp [Scrape.cacheResult, List.lookup]
    rw [Scrape.checkCache, hl]
    have h1 : ¬ now < d.scraped_at + Scrape.ttlMs := by
      simp only [Scrape.ttlMs] at h ⊢
      omega
    simp only [h1, if_false]
  · intro env u hmiss
    rw [Scrape.scrape_miss_error env u hmiss]
    exact ⟨rfl, rfl⟩
  · have hmiss : Scrape.checkCache Scrape.c4Env.cache Scrape.c4Env.now
        "http://c.com/".toList = none := by decide
    have hs := Scrape.scrape_miss_error Scrape.c4Env "http://c.com/".toList hmiss
    exact ⟨by decide, by decide, by decide, by rw [hs], by rw [hs]⟩

/-- Witness for C4 at concrete instants: a hit one millisecond before the
TTL elapses, a miss exactly at the TTL, and the cache left untouched by
the failing re-fetch at the concrete stale-entry environment. -/
theorem Scrape.c4_cache_round_trip_bug_witness :
    Scrape.checkCache
      (Scrape.cacheResult [] Scrape.c4Doc.scraped_at "http://c.com/".toList Scrape.c4Doc)
      (Scrape.c4Doc.scraped_at + Scrape.ttlMs - 1) "http://c.com/".toList =
        some Scrape.c4Doc ∧
    Scrape.checkCache
      (Scrape.cacheResult [] Scrape.c4Doc.scraped_at "http://c.com/".toList Scrape.c4Doc)
      (Scrape.c4Doc.scraped_at + Scrape.ttlMs) "http://c.com/".toList = none ∧
    (Scrape.scrapeSingleUrl Scrape.c4Env "http://c.com/".toList).2 = Scrape.c4Env.cache := by
  refine ⟨Scrape.c4_cache_round_trip_bug.1 [] _ Scrape.c4Doc _ ?_,
    Scrape.c4_cache_round_trip_bug.2.1 [] _ Scrape.c4Doc _ ?_,
    (Scrape.c4_cache_round_trip_bug.2.2.1 Scrape.c4Env "http://c.com/".toList (by decide)).2⟩
  · simp only [Scrape.c4Doc, Scrape.ttlMs]
    omega
  · simp only [Scrape.c4Doc, Scrape.ttlMs]
    omega

/-- C5: a manual crawl of a URL whose plain fetch permanently returns
HTTP 500, with the rendered-browser and proxy strategies unconfigured,
fails overall with the strategy-exhaustion message carrying the LAST
strategy's error, and nothing is written to the cache. -/
theorem Scrape.c5_strategy_exhaustion (env : Scrape.Env) (u : Scrape.Str)
    (resp : Scrape.HttpResp)
    (hvalid : Scrape.isValidUrl u = true)
    (hmiss : Scrape.checkCache env.cache env.now u = none)
    (_hweb : env.web.lookup u = some resp)
    (_hnok : resp.ok = false)
    (_hstatus : resp.status = 500)
    (_hmr : 1 ≤ env.maxRetries) :
    (Scrape.handleCrawl env ⟨u, "manual".toList, 1⟩).success = false ∧
    (Scrape.handleCrawl env ⟨u, "manual".toList, 1⟩).error =
      "All scraping strategies failed. Last error: API scraping not configured".toList ∧
    (Scrape.scrapeSingleUrl env u).2 = env.cache := by
  have hscrape : Scrape.scrapeSingleUrl env u =
      (.error "All scraping strategies failed. Last error: API scraping not configured".toList,
        env.cache) := Scrape.scrape_miss_error env u hmiss
  have hh : Scrape.handleCrawl env ⟨u, "manual".toList, 1⟩ =
      { success := false
        error := "All scraping strategies failed. Last error: API scraping not configured".toList
        result := none } := by
    rw [Scrape.handleCrawl]
    simp only [hvalid]
    rw [hscrape]
    rfl
  rw [hh, hscrape]
  exact ⟨rfl, rfl, rfl⟩

/-- Witness for C5 at the concrete 500-serving environment. -/
theorem Scrape.c5_strategy_exhaustion_witness :
    (Scrape.handleCrawl Scrape.c5Env ⟨"http://err.com/".toList, "manual".toList, 1⟩).success
      = false ∧
    (Scrape.handleCrawl Scrape.c5Env ⟨"http://err.com/".toList, "manual".toList, 1⟩).error =
      "All scraping strategies failed. Last error: API scraping not configured".toList ∧
    (Scrape.scrapeSingleUrl Scrape.c5Env "http://err.com/".toList).2 = Scrape.c5Env.cache :=
  Scrape.c5_strategy_exhaustion Scrape.c5Env "http://err.com/".toList Scrape.c5Resp
    (by decide) (by decide) (by decide) (by decide) (by decide) (by decide)

/-- C2: in every recursive traversal — cyclic link graphs included — no
URL is scraped twice (the attempt log is duplicate-free), the number of
returned pages never exceeds the configured page cap, every scrape attempt
and every returned Document was dequeued at a depth within `maxDepth`, and
the traversal ends only because the frontier emptied or the page cap was
reached. -/
theorem Scrape.c2_traversal_invariants (env : Scrape.Env) (startUrl : Scrape.Str)
    (maxDepth : Nat) :
    ((Scrape.crawlRecursive env startUrl maxDepth).log.map Prod.fst).Nodup ∧
    (Scrape.crawlRecursive env startUrl maxDepth).data.pages_crawled ≤ env.maxPages ∧
    (∀ e ∈ (Scrape.crawlRecursive env startUrl maxDepth).log, e.2 ≤ maxDepth) ∧
    (∀ r ∈ (Scrape.crawlRecursive env startUrl maxDepth).resultsDepths, r.2 ≤ maxDepth) ∧
    ((Scrape.crawlRecursive env startUrl maxDepth).finalQueue = [] ∨
      (Scrape.crawlRecursive env startUrl maxDepth).data.pages_crawled = env.maxPages) := by
  have hinv0 : Scrape.crawlInv startUrl (Scrape.extractDomain startUrl) maxDepth env.maxPages
      ⟨[(startUrl, 0)], [], [], []⟩ := by
    refine ⟨by simp, by simp, by simp, ?_, by simp, by simp, ?_, by simp⟩
    · intro q hq
      simp only [List.mem_singleton] at hq
      rw [hq]
      exact Nat.zero_le _
    · intro q hq
      simp only [List.mem_singleton] at hq
      rw [hq]
      exact Or.inl rfl
  have hfin := Scrape.crawlLoop_preserves_inv env startUrl (Scrape.extractDomain startUrl)
    maxDepth env.maxPages
    (Scrape.crawlMeasure env ⟨[(startUrl, 0)], [], [], []⟩ + 1)
    ⟨[(startUrl, 0)], [], [], []⟩ hinv0
  have hstop := Scrape.crawlLoop_reaches_stop env (Scrape.extractDomain startUrl)
    maxDepth env.maxPages
    (Scrape.crawlMeasure env ⟨[(startUrl, 0)], [], [], []⟩ + 1)
    ⟨[(startUrl, 0)], [], [], []⟩ (Nat.lt_succ_self _)
  obtain ⟨g1, _, g3, _, g5, g6, _, _⟩ := hfin
  simp only [Scrape.crawlRecursive]
  refine ⟨g1, g5, g3, g6, ?_⟩
  rcases hstop with hstop | hstop
  · exact Or.inl hstop
  · exact Or.inr (Nat.le_antisymm g5 hstop)

/-- Witness for C2 at the concrete traversal scenario (whose link graph
contains a cycle back to the start). -/
theorem Scrape.c2_traversal_invariants_witness :
    ((Scrape.crawlRecursive Scrape.c8Env Scrape.c8Start 1).log.map Prod.fst).Nodup ∧
    (Scrape.crawlRecursive Scrape.c8Env Scrape.c8Start 1).data.pages_crawled ≤
      Scrape.c8Env.maxPages :=
  ⟨(Scrape.c2_traversal_invariants Scrape.c8Env Scrape.c8Start 1).1,
   (Scrape.c2_traversal_invariants Scrape.c8Env Scrape.c8Start 1).2.1⟩

/-- C8 counterexample, through the program's one live success path (fresh
cache hits; the plain-fetch strategy always throws): the start's hostname
`example.com` IS a suffix of the link's hostname `blog.example.com` (same
registrable domain by host suffix match), the start page is successfully
scraped at depth 0 < maxDepth with the subdomain link in its Document
links, and the subdomain page itself is fresh in the cache (a traversal
that enqueued it would scrape it) — yet the crawl returns one page and the
subdomain URL never enters the attempt log: the code compares full
hostnames for equality, not registrable domains by suffix. -/
theorem Scrape.c8_counterexample :
    Scrape.extractDomain Scrape.c8bStart = some "example.com".toList ∧
    Scrape.extractDomain Scrape.c8bLink = some "blog.example.com".toList ∧
    Scrape.endsWith "example.com".toList "blog.example.com".toList = true ∧
    (Scrape.checkCache Scrape.c8cEnv.cache Scrape.c8cEnv.now Scrape.c8bLink).isSome = true ∧
    ((Scrape.crawlRecursive Scrape.c8cEnv Scrape.c8bStart 1).data.pages.map
      Scrape.Doc.links) = [[Scrape.c8bLink]] ∧
    (Scrape.crawlRecursive Scrape.c8cEnv Scrape.c8bStart 1).data.pages_crawled = 1 ∧
    Scrape.c8bLink ∉
      ((Scrape.crawlRecursive Scrape.c8cEnv Scrape.c8bStart 1).log.map Prod.fst) := by
  refine ⟨by decide, by decide, by decide, by decide, by decide, by decide, by decide⟩

/-- C8 amended: an outbound link of a successfully scraped page is
enqueued (and later fetched) only when the parent's depth is below
`maxDepth`, the link's EXACT hostname (as `extractDomain` parses it)
equals the start URL's hostname, and the link is not yet visited; hence
every fetched URL other than the start has the start's hostname, and
cross-domain links appear in the Documents' link lists but are never
fetched.  Because the plain-fetch strategy always throws (the uninitialized
`response` read), pages are successfully scraped only from fresh cache
entries; over fresh cached copies of the scenario pages (3 same-host + 2
cross-host links) the maxDepth=1 crawl returns exactly 4 pages with the
cross-host pages absent. -/
theorem Scrape.c8_amended_same_host (env : Scrape.Env) (startUrl : Scrape.Str)
    (maxDepth : Nat) :
    (∀ e ∈ (Scrape.crawlRecursive env startUrl maxDepth).log,
      e.1 = startUrl ∨ Scrape.extractDomain e.1 = Scrape.extractDomain startUrl) ∧
    (Scrape.crawlRecursive Scrape.c8dEnv Scrape.c8Start 1).data.pages_crawled = 4 ∧
    ((Scrape.crawlRecursive Scrape.c8dEnv Scrape.c8Start 1).data.pages.map
      Scrape.Doc.url) =
      [Scrape.c8Start, "http://site.com/a".toList, "http://site.com/b".toList,
        "http://site.com/c".toList] ∧
    ((Scrape.crawlRecursive Scrape.c8dEnv Scrape.c8Start 1).data.pages.map
      Scrape.Doc.links) =
      [["http://site.com/a".toList, "http://site.com/b".toList,
        "http://site.com/c".toList, "http://other.com/x".toList,
        "http://elsewhere.org/y".toList], [Scrape.c8Start], [], []] ∧
    "http://other.com/x".toList ∉
      ((Scrape.crawlRecursive Scrape.c8dEnv Scrape.c8Start 1).data.pages.map
        Scrape.Doc.url) := by
  refine ⟨?_, by decide, by decide, by decide, by decide⟩
  have hinv0 : Scrape.crawlInv startUrl (Scrape.extractDomain startUrl) maxDepth env.maxPages
      ⟨[(startUrl, 0)], [], [], []⟩ := by
    refine ⟨by simp, by simp, by simp, ?_, by simp, by simp, ?_, by simp⟩
    · intro q hq
      simp only [List.mem_singleton] at hq
      rw [hq]
      exact Nat.zero_le _
    · intro q hq
      simp only [List.mem_singleton] at hq
      rw [hq]
      exact Or.inl rfl
  have hfin := Scrape.crawlLoop_preserves_inv env startUrl (Scrape.extractDomain startUrl)
    maxDepth env.maxPages
    (Scrape.crawlMeasure env ⟨[(startUrl, 0)], [], [], []⟩ + 1)
    ⟨[(startUrl, 0)], [], [], []⟩ hinv0
  simp only [Scrape.crawlRecursive]
  exact hfin.2.2.2.2.2.2.2

/-- Witness for C8 amended: in the cache-driven scenario, the second
fetched URL indeed has the start's hostname. -/
theorem Scrape.c8_amended_same_host_witness :
    ("http://site.com/a".toList = Scrape.c8Start ∨
      Scrape.extractDomain "http://site.com/a".toList =
        Scrape.extractDomain Scrape.c8Start) ∧
    (Scrape.crawlRecursive Scrape.c8dEnv Scrape.c8Start 1).data.pages_crawled = 4 :=
  ⟨(Scrape.c8_amended_same_host Scrape.c8dEnv Scrape.c8Start 1).1
      ("http://site.com/a".toList, 1) (by decide),
   (Scrape.c8_amended_same_host Scrape.c8dEnv Scrape.c8Start 1).2.1⟩

/-- C10: a completed recursive (auto-mode) crawl always reports
`success: true` — its success flag is hard-coded — and when every fetch
fails (no cache, no reachable network, the start URL included) it still
succeeds with zero pages crawled and an empty page list; the `handleCrawl`
wrapper then also reports success for auto mode on any valid URL. -/
theorem Scrape.c10_crawl_always_success :
    (∀ (env : Scrape.Env) (startUrl : Scrape.Str) (maxDepth : Nat),
      (Scrape.crawlRecursive env startUrl maxDepth).success = true) ∧
    (∀ (now mr mp : Nat) (startUrl : Scrape.Str) (maxDepth : Nat),
      (Scrape.crawlRecursive ⟨[], [], now, mr, mp⟩ startUrl maxDepth).data.pages_crawled = 0 ∧
      (Scrape.crawlRecursive ⟨[], [], now, mr, mp⟩ startUrl maxDepth).data.pages = []) ∧
    (∀ (env : Scrape.Env) (p : Scrape.CrawlParams),
      Scrape.isValidUrl p.url = true → p.mode = "auto".toList →
      (Scrape.handleCrawl env p).success = true) := by
  refine ⟨?_, ?_, ?_⟩
  · intro env startUrl maxDepth
    rfl
  · intro now mr mp startUrl maxDepth
    have hfail : ∀ u, ∃ e,
        (Scrape.scrapeSingleUrl ⟨[], [], now, mr, mp⟩ u).1 = .error e :=
      fun u => ⟨_, Scrape.scrape_emptyEnv_fails now mr mp u⟩
    have hres := Scrape.crawlLoop_results_of_all_fail ⟨[], [], now, mr, mp⟩
      (Scrape.extractDomain startUrl) maxDepth
      (Scrape.Env.maxPages ⟨[], [], now, mr, mp⟩) hfail
      (Scrape.crawlMeasure ⟨[], [], now, mr, mp⟩ ⟨[(startUrl, 0)], [], [], []⟩ + 1)
      ⟨[(startUrl, 0)], [], [], []⟩
    constructor
    · simp only [Scrape.crawlRecursive, hres]
      rfl
    · simp only [Scrape.crawlRecursive, hres]
      rfl
  · intro env p hvalid hmode
    rw [Scrape.handleCrawl, hvalid, hmode]
    rfl

/-- Witness for C10: an auto-mode crawl request over the scenario
environment reports success. -/
theorem Scrape.c10_crawl_always_success_witness :
    (Scrape.handleCrawl Scrape.c8Env ⟨Scrape.c8Start, "auto".toList, 1⟩).success = true :=
  Scrape.c10_crawl_always_success.2.2 Scrape.c8Env ⟨Scrape.c8Start, "auto".toList, 1⟩
    (by decide) rfl

/-- Witness for C9 amended, at the concrete scenario: one successful send
followed by a failing one stops the feed's dispatch after the failing job. -/
theorem Scrape.c9_amended_dispatch_witness :
    Scrape.dispatchItems Scrape.c9Send Scrape.c9Feed.name
      ([⟨Scrape.c9E2, 0⟩] ++ (⟨Scrape.c9E1, 0⟩ : Scrape.ScoredItem) :: [⟨Scrape.c9E2, 0⟩]) =
      ([⟨Scrape.c9E2, 0⟩], 1,
        [⟨Scrape.c9E2, 0⟩].map (Scrape.mkJob Scrape.c9Feed.name) ++
          [Scrape.mkJob Scrape.c9Feed.name ⟨Scrape.c9E1, 0⟩],
        some "queue full".toList) := by
  apply (Scrape.c9_amended_dispatch.1 Scrape.c9Send Scrape.c9Feed.name
    [⟨Scrape.c9E2, 0⟩] ⟨Scrape.c9E1, 0⟩ [⟨Scrape.c9E2, 0⟩] "queue full".toList)
  · intro x hx
    have hx2 : x = (⟨Scrape.c9E2, 0⟩ : Scrape.ScoredItem) := by
      simpa using hx
    rw [hx2, Scrape.c9Send, Scrape.mkJob]
    decide
  · rw [Scrape.c9Send, Scrape.mkJob]
    decide
